import Mathlib

/-!
Location webhook reconciler (`internal/webhooks/location.go`)

A shallow embedding of `locationProcessor.Create`, `Close`, `Destroy` and
`unlinkLocation`.  The persistent store is a value of type `Store`; every
handler is a function from a store to an error result and the store it leaves
behind.  Times, identifiers and external ("duo") identifiers are natural
numbers, a Go `error` is an `Option Err` (`none` is `nil`).

Store failures are made explicit: a `Faults` value says which statement of a
handler is forced to fail with an infrastructure error.
-/

namespace Webhooks

/-- Errors seen by the handlers: the two lookup errors of the query builder and
an infrastructure failure carrying an arbitrary code. -/
inductive Err where
  | notFound
  | notSingular
  | infra (code : Nat)
  deriving DecidableEq, Repr

/-- The nested user sub-payload of a location event (`duoapi.LocationUser`). -/
structure LocationUser where
  ID : Nat
  Login : String
  deriving DecidableEq, Repr

/-- The location payload carried by every event
(`duoapi.Location[duoapi.LocationUser]`). `EndAt` is nillable. -/
structure DuoLocation where
  ID : Nat
  CampusID : Nat
  BeginAt : Nat
  EndAt : Option Nat
  Host : String
  User : LocationUser
  deriving DecidableEq, Repr

/-- A campus row: internal identifier and external identifier. -/
structure Campus where
  ID : Nat
  DuoID : Nat
  deriving DecidableEq, Repr

/-- A user row, restricted to the columns the handlers read or write. -/
structure User where
  ID : Nat
  DuoID : Nat
  DuoLogin : String
  CurrentLocationID : Option Nat
  LastLocationID : Option Nat
  CurrentCampusID : Option Nat
  deriving DecidableEq, Repr

/-- A location row. -/
structure Location where
  ID : Nat
  DuoID : Nat
  CampusID : Nat
  UserID : Nat
  BeginAt : Nat
  EndAt : Option Nat
  Identifier : String
  UserDuoID : Nat
  UserDuoLogin : String
  deriving DecidableEq, Repr

/-- The persistent store: three tables and the next fresh primary key of the two
tables the handlers insert into. -/
structure Store where
  campuses : List Campus
  users : List User
  locations : List Location
  nextUserID : Nat
  nextLocationID : Nat
  deriving DecidableEq, Repr

/-- Which statements are forced to fail, and with which infrastructure error
code. One field per store statement of `location.go`, in source order. -/
structure Faults where
  campusQuery : Option Nat
  userFirstOrCreate : Option Nat
  locationUpsert : Option Nat
  userSetPointers : Option Nat
  locationUpdate : Option Nat
  locationDelete : Option Nat
  userQuery : Option Nat
  userClear : Option Nat
  deriving DecidableEq, Repr

/-- No statement fails. -/
def noFaults : Faults :=
  ⟨none, none, none, none, none, none, none, none⟩

/-- The test `generated.IsNotFound(err)`. -/
def IsNotFound : Err → Bool
  | .notFound => true
  | _ => false

/-- The test `strings.HasPrefix(s, prefix)`. -/
def HasPrefix (s pre : String) : Bool :=
  pre.data.isPrefixOf s.data

/-! ## Store statements -/

/-- Modelled from the spec: the generated query
`Campus.Query().Where(campus.DuoID(id)).Only(ctx)`, the spec's
`FindCampusByExternalID(id) -> (Campus, NotFoundError|OtherError)`: exactly one
matching row is returned, no row is not-found, any other outcome is an error. -/
def campusOnly (fault : Option Nat) (s : Store) (duoID : Nat) : Except Err Campus :=
  match fault with
  | some code => .error (.infra code)
  | none =>
    match s.campuses.filter (fun c => c.DuoID = duoID) with
    | [] => .error .notFound
    | [c] => .ok c
    | _ => .error .notSingular

/-- Modelled from the spec: `modelsutils.UserFirstOrCreateFromLocation`, the
spec's `FindOrCreateUserFromLocationPayload`: resolve the user by external
identifier, or insert a new row built from the embedded user payload, with null
pointers. Repeated calls never create a second row for one external
identifier. -/
def UserFirstOrCreateFromLocation (fault : Option Nat) (s : Store) (loc : DuoLocation) :
    Except Err User × Store :=
  match fault with
  | some code => (.error (.infra code), s)
  | none =>
    match s.users.find? (fun u => u.DuoID = loc.User.ID) with
    | some u => (.ok u, s)
    | none =>
      let u : User := ⟨s.nextUserID, loc.User.ID, loc.User.Login, none, none, none⟩
      (.ok u, { s with users := s.users ++ [u], nextUserID := s.nextUserID + 1 })

/-- The columns written by the upsert of `Create` on a row that already has the
external identifier. The nillable setter `SetNillableEndAt` writes `EndAt` only
when the payload carries a value. -/
def upsertRow (campus : Campus) (loc : DuoLocation) (user : User) (l : Location) : Location :=
  { l with
    CampusID := campus.ID
    BeginAt := loc.BeginAt
    EndAt := match loc.EndAt with
      | some t => some t
      | none => l.EndAt
    Identifier := loc.Host
    UserID := user.ID
    UserDuoID := loc.User.ID
    UserDuoLogin := user.DuoLogin }

/-- Modelled from the spec: the generated upsert
`Location.Create()...OnConflictColumns(location.FieldDuoID).UpdateNewValues().ID(ctx)`,
the spec's "upsert-by-externalID": if no row has the external identifier, insert
one under a fresh primary key; otherwise update the written columns in place.
Returns the primary key of the (possibly pre-existing) row. -/
def locationUpsert (fault : Option Nat) (s : Store) (campus : Campus) (loc : DuoLocation)
    (user : User) : Except Err Nat × Store :=
  match fault with
  | some code => (.error (.infra code), s)
  | none =>
    match s.locations.find? (fun l => l.DuoID = loc.ID) with
    | some l =>
      (.ok l.ID,
        { s with locations :=
            s.locations.map (fun l => if l.DuoID = loc.ID then upsertRow campus loc user l else l) })
    | none =>
      let l : Location :=
        ⟨s.nextLocationID, loc.ID, campus.ID, user.ID, loc.BeginAt, loc.EndAt, loc.Host,
          loc.User.ID, user.DuoLogin⟩
      (.ok l.ID, { s with locations := s.locations ++ [l], nextLocationID := s.nextLocationID + 1 })

/-- The columns written on the user row whose primary key is `id` by the pointer
update of `Create`; every other row is left as it is. -/
def linkRow (id locationID : Nat) (campus : Campus) (u : User) : User :=
  if u.ID = id then
    { u with
      CurrentLocationID := some locationID
      LastLocationID := some locationID
      CurrentCampusID := some campus.ID }
  else u

/-- The column cleared on the user row whose primary key is `id` by the unlink
step; every other row is left as it is. -/
def clearRow (id : Nat) (u : User) : User :=
  if u.ID = id then { u with CurrentLocationID := none } else u

/-- Modelled from the spec: the generated
`User.UpdateOneID(id).SetCurrentLocationID(l).SetLastLocationID(l).SetCurrentCampus(c).Exec(ctx)`,
the spec's "update-by-identity setting the three pointer fields"; not-found when
no row has the primary key. -/
def userSetPointers (fault : Option Nat) (s : Store) (id locationID : Nat) (campus : Campus) :
    Option Err × Store :=
  match fault with
  | some code => (some (.infra code), s)
  | none =>
    if s.users.any (fun u => u.ID = id) then
      (none, { s with users := s.users.map (linkRow id locationID campus) })
    else (some .notFound, s)

/-- The columns written by the update of `Close`; `SetNillableEndAt` writes
`EndAt` only when the payload carries a value. -/
def closeRow (loc : DuoLocation) (l : Location) : Location :=
  { l with
    EndAt := match loc.EndAt with
      | some t => some t
      | none => l.EndAt
    Identifier := loc.Host }

/-- Modelled from the spec: the generated
`Location.Update().SetNillableEndAt(..).SetIdentifier(..).Where(location.DuoID(id)).Exec(ctx)`,
the spec's "update-by-externalID with nullable-field setters". Matching no row
is not an error. -/
def locationUpdate (fault : Option Nat) (s : Store) (loc : DuoLocation) : Option Err × Store :=
  match fault with
  | some code => (some (.infra code), s)
  | none =>
    (none,
      { s with locations := s.locations.map (fun l => if l.DuoID = loc.ID then closeRow loc l else l) })

/-- Modelled from the spec: the generated
`Location.Delete().Where(location.DuoID(id)).Exec(ctx)`, the spec's
"delete-by-externalID". Matching no row is not an error. -/
def locationDelete (fault : Option Nat) (s : Store) (duoID : Nat) : Option Err × Store :=
  match fault with
  | some code => (some (.infra code), s)
  | none => (none, { s with locations := s.locations.filter (fun l => ¬ l.DuoID = duoID) })

/-- Modelled from the spec: the generated
`User.Query().Where(user.DuoID(id)).First(ctx)`, the spec's
`FindUserByExternalID(id) -> (User, NotFoundError|OtherError)`. -/
def userFirst (fault : Option Nat) (s : Store) (duoID : Nat) : Except Err User :=
  match fault with
  | some code => .error (.infra code)
  | none =>
    match s.users.find? (fun u => u.DuoID = duoID) with
    | some u => .ok u
    | none => .error .notFound

/-- Modelled from the spec: the generated
`User.UpdateOne(user).ClearCurrentLocation().Exec(ctx)`, the spec's
"update-by-identity clearing" of the current-location pointer; not-found when no
row has the primary key. -/
def userClearCurrentLocation (fault : Option Nat) (s : Store) (user : User) : Option Err × Store :=
  match fault with
  | some code => (some (.infra code), s)
  | none =>
    if s.users.any (fun u => u.ID = user.ID) then
      (none, { s with users := s.users.map (clearRow user.ID) })
    else (some .notFound, s)

/-! ## Transactions -/

/-- The two handles a transaction body can write through: `db` is the state
behind the client handle `p.db`, whose statements are committed one by one;
`tx` is the state behind the transaction handle. -/
structure TxCtx where
  db : Store
  tx : Store
  deriving DecidableEq, Repr

/-- A statement issued through the transaction handle `tx`. -/
def TxCtx.viaTx {α : Type} (c : TxCtx) (stmt : Store → α × Store) : α × TxCtx :=
  ((stmt c.tx).1, { c with tx := (stmt c.tx).2 })

/-- A statement issued through the client handle `p.db` while a transaction is
open: it is committed at once, and the open transaction sees it. -/
def TxCtx.viaDb {α : Type} (c : TxCtx) (stmt : Store → α × Store) : α × TxCtx :=
  ((stmt c.db).1, { db := (stmt c.db).2, tx := (stmt c.tx).2 })

/-- Modelled from the spec: `modelsutils.WithTx`, the spec's
`WithTransaction(fn) -> error`: "executing `fn` with a transactional handle; any
error returned by `fn` rolls back; success commits". -/
def WithTx (s : Store) (fn : TxCtx → Option Err × TxCtx) : Option Err × Store :=
  match fn ⟨s, s⟩ with
  | (none, c) => (none, c.tx)
  | (some e, c) => (some e, c.db)

/-! ## The handlers of `location.go` -/

/-- The helper `locationProcessor.unlinkLocation`: both statements go through `p.db`. -/
def unlinkLocation (f : Faults) (s : Store) (duoLoc : DuoLocation) : Option Err × Store :=
  match userFirst f.userQuery s duoLoc.User.ID with
  | .error e => if IsNotFound e then (none, s) else (some e, s)
  | .ok user => userClearCurrentLocation f.userClear s user

/-- The handler `locationProcessor.Create`. -/
def Create (f : Faults) (s : Store) (loc : DuoLocation) : Option Err × Store :=
  match campusOnly f.campusQuery s loc.CampusID with
  | .error e => (some e, s)
  | .ok campus =>
    if HasPrefix loc.User.Login "3b3" then (none, s)
    else
      match UserFirstOrCreateFromLocation f.userFirstOrCreate s loc with
      | (.error e, s1) => (some e, s1)
      | (.ok user, s1) =>
        WithTx s1 (fun c =>
          match c.viaTx (fun t => locationUpsert f.locationUpsert t campus loc user) with
          | (.error e, c1) => (some e, c1)
          | (.ok locationID, c1) =>
            c1.viaTx (fun t => userSetPointers f.userSetPointers t user.ID locationID campus))

/-- The handler `locationProcessor.Close`: the body handed to `WithTx` issues its statements
through `p.db`, not through the transaction handle. -/
def Close (f : Faults) (s : Store) (loc : DuoLocation) : Option Err × Store :=
  WithTx s (fun c =>
    match c.viaDb (fun d => locationUpdate f.locationUpdate d loc) with
    | (some e, c1) =>
      if !IsNotFound e then (some e, c1)
      else c1.viaDb (fun d => unlinkLocation f d loc)
    | (none, c1) => c1.viaDb (fun d => unlinkLocation f d loc))

/-- The handler `locationProcessor.Destroy`: no transaction. -/
def Destroy (f : Faults) (s : Store) (loc : DuoLocation) : Option Err × Store :=
  match locationDelete f.locationDelete s loc.ID with
  | (some e, s1) =>
    if !IsNotFound e then (some e, s1)
    else unlinkLocation f s1 loc
  | (none, s1) => unlinkLocation f s1 loc

/-- The three event kinds dispatched to the processor. -/
inductive Event where
  | create (loc : DuoLocation)
  | close (loc : DuoLocation)
  | destroy (loc : DuoLocation)
  deriving DecidableEq, Repr

/-- Apply one event with the given forced failures. -/
def apply (f : Faults) (s : Store) : Event → Option Err × Store
  | .create loc => Create f s loc
  | .close loc => Close f s loc
  | .destroy loc => Destroy f s loc

/-- Apply a sequence of events, each with the failures forced on its statements,
keeping the store each handler leaves behind whether or not it returned an
error. -/
def run (s : Store) : List (Faults × Event) → Store
  | [] => s
  | fe :: es => run (apply fe.1 s fe.2).2 es

/-! ## The store committed by a successful `Create` -/

/-- The user row `Create` resolves when no statement fails: the first row with
the payload's external user identifier, or the row inserted for it. -/
def resolvedUser (s : Store) (loc : DuoLocation) : User :=
  match s.users.find? (fun u => u.DuoID = loc.User.ID) with
  | some u => u
  | none => ⟨s.nextUserID, loc.User.ID, loc.User.Login, none, none, none⟩

/-- The primary key the upsert of `Create` returns when no statement fails. -/
def upsertID (s : Store) (loc : DuoLocation) : Nat :=
  match s.locations.find? (fun l => l.DuoID = loc.ID) with
  | some l => l.ID
  | none => s.nextLocationID

/-- The store a successful `Create` commits, for the campus it resolved. -/
def created (campus : Campus) (s : Store) (loc : DuoLocation) : Store :=
  let s1 := (UserFirstOrCreateFromLocation none s loc).2
  let s2 := (locationUpsert none s1 campus loc (resolvedUser s loc)).2
  { s2 with users := s2.users.map (linkRow (resolvedUser s loc).ID (upsertID s loc) campus) }

/-! ## Concrete stores and events -/

/-- A campus with internal identifier 1 and external identifier 7. -/
def campus7 : Campus := ⟨1, 7⟩

/-- A store holding one campus and no user or location row. -/
def store0 : Store := ⟨[campus7], [], [], 0, 0⟩

/-- The payload of the spec's scenario: location 42 of alice on campus 7, open. -/
def ev42 : DuoLocation := ⟨42, 7, 100, none, "e1r1p1", ⟨10, "alice"⟩⟩

/-- The closing payload of location 42: `EndAt` is 200. -/
def ev42closed : DuoLocation := ⟨42, 7, 100, some 200, "e1r1p1", ⟨10, "alice"⟩⟩

/-- A second location of alice, 43, open. -/
def ev43 : DuoLocation := ⟨43, 7, 150, none, "e1r1p2", ⟨10, "alice"⟩⟩

/-- A payload of an anonymized account. -/
def evAnon : DuoLocation := ⟨44, 7, 100, none, "e1r1p3", ⟨11, "3b3f2c"⟩⟩

/-- A `Create` of location 42 for another external user, bob. -/
def ev42bob : DuoLocation := ⟨42, 7, 120, none, "e1r1p1", ⟨20, "bob"⟩⟩

/-- A closing payload of location 42 that names bob. -/
def ev42bobClosed : DuoLocation := ⟨42, 7, 120, some 300, "e1r1p1", ⟨20, "bob"⟩⟩

/-- The store after `Create` of location 42 on `store0`. -/
def store42 : Store :=
  ⟨[campus7], [⟨0, 10, "alice", some 0, some 0, some 1⟩],
    [⟨0, 42, 1, 0, 100, none, "e1r1p1", 10, "alice"⟩], 1, 1⟩

/-- Only the clearing of the user pointer in the unlink step fails. -/
def failUserClear : Faults := ⟨none, none, none, none, none, none, none, some 5⟩

/-- Only the pointer update of `Create` fails. -/
def failSetPointers : Faults := ⟨none, none, none, some 5, none, none, none, none⟩

/-- Only the location update of `Close` fails. -/
def failLocationUpdate : Faults := ⟨none, none, none, none, some 5, none, none, none⟩

/-- A redelivery of the `Create` of location 42 that reports another host. -/
def ev42moved : DuoLocation := ⟨42, 7, 100, none, "e1r1p9", ⟨10, "alice"⟩⟩

/-- A location of bob, 50, open. -/
def ev50bob : DuoLocation := ⟨50, 7, 130, none, "e2r1p1", ⟨20, "bob"⟩⟩

/-- A sequence in which every event is in order: location 42 of alice is created,
redelivered from another host, and closed; location 50 of bob is created and
destroyed; a `Close` of 42 fails in its first statement; a `Create` of location
43 of alice fails in its pointer update and is then redelivered. -/
def orderedExample : List (Faults × Event) :=
  [(noFaults, .create ev42), (noFaults, .create ev42moved), (noFaults, .create ev50bob),
    (noFaults, .close ev42closed), (noFaults, .destroy ev50bob),
    (failLocationUpdate, .close ev42closed), (failSetPointers, .create ev43),
    (noFaults, .create ev43)]

/-- A sequence in which every `Create` keeps ownership: location 42 of alice is
created and redelivered from another host, a `Close` of 42 fails in its unlink
step, a `Create` of location 50 of bob fails in its pointer update, and location
43 of alice is created. -/
def ownerExample : List (Faults × Event) :=
  [(noFaults, .create ev42), (noFaults, .create ev42moved), (failUserClear, .close ev42closed),
    (failSetPointers, .create ev50bob), (noFaults, .create ev42moved),
    (noFaults, .create ev43)]

/-! ## Predicates on stores and event sequences -/

/-- The rewrite the unlink step applies to every user row of a table: clear the
pointer on the rows with the primary key of the first row carrying the external
user identifier `d`, if there is one. -/
def unlinkRow (us : List User) (d : Nat) : User → User :=
  match us.find? (fun u => u.DuoID = d) with
  | some w => clearRow w.ID
  | none => id

/-- Facts every handler keeps: primary keys of location rows are below the next
fresh key and identify the row, user rows with one external identifier share
their primary key, and every location row is owned by a user row carrying the
snapshot external identifier. -/
structure Aux (s : Store) : Prop where
  locFresh : ∀ l ∈ s.locations, l.ID < s.nextLocationID
  locKey : ∀ l ∈ s.locations, ∀ l' ∈ s.locations, l.ID = l'.ID → l = l'
  userDuo : ∀ u ∈ s.users, ∀ v ∈ s.users, u.DuoID = v.DuoID → u.ID = v.ID
  owner : ∀ l ∈ s.locations, ∃ u ∈ s.users, u.ID = l.UserID ∧ u.DuoID = l.UserDuoID

/-- The ownership property of a store: whenever the current-location pointer of
a user row references a location row, that row's owning user is this user. -/
def OwnerConsistent (s : Store) : Prop :=
  ∀ u ∈ s.users, ∀ l ∈ s.locations, u.CurrentLocationID = some l.ID → l.UserID = u.ID

/-- A `Create` event keeps ownership on a store when every row that already has
its external identifier was written for the same external user. -/
def keepsOwner (s : Store) : Event → Prop
  | .create loc => ∀ l ∈ s.locations, l.DuoID = loc.ID → l.UserDuoID = loc.User.ID
  | .close _ => True
  | .destroy _ => True

instance (s : Store) (e : Event) : Decidable (keepsOwner s e) := by
  cases e <;> (unfold keepsOwner; infer_instance)

/-- Every `Create` of the sequence keeps ownership on the store it is applied
to. -/
def ownerTrace (s : Store) : List (Faults × Event) → Prop
  | [] => True
  | fe :: es => keepsOwner s fe.2 ∧ ownerTrace (apply fe.1 s fe.2).2 es

instance decOwnerTrace :
    (s : Store) → (es : List (Faults × Event)) → Decidable (ownerTrace s es)
  | _, [] => isTrue trivial
  | s, fe :: es =>
    match (inferInstance : Decidable (keepsOwner s fe.2)),
      decOwnerTrace (apply fe.1 s fe.2).2 es with
    | isTrue h1, isTrue h2 => isTrue ⟨h1, h2⟩
    | isFalse h1, _ => isFalse (fun h => h1 h.1)
    | _, isFalse h2 => isFalse (fun h => h2 h.2)

/-- Ownership together with the fact that pointers stay below the next fresh
location key. -/
structure Own2 (s : Store) : Prop where
  own : OwnerConsistent s
  ptrFresh : ∀ u ∈ s.users, ∀ i, u.CurrentLocationID = some i → i < s.nextLocationID

/-- The pointer-consistency property of a store: whenever the current-location
pointer of a user row is non-null, the referenced location row exists and has a
null `EndAt`. -/
def PointerConsistent (s : Store) : Prop :=
  ∀ u ∈ s.users, ∀ i, u.CurrentLocationID = some i →
    (∃ l ∈ s.locations, l.ID = i) ∧ ∀ l ∈ s.locations, l.ID = i → l.EndAt = none

/-- An event, with the failures forced on its statements, is in order on a store
when: a `Create` carries a null `EndAt` and every row that already has its
external identifier is open and was written for the same external user; a
`Close` or `Destroy` either returns no error or leaves the store as it was, and
names the external user every row with its external identifier was written
for. -/
def inOrder (f : Faults) (s : Store) : Event → Prop
  | .create loc =>
    loc.EndAt = none ∧
      ∀ l ∈ s.locations, l.DuoID = loc.ID → l.EndAt = none ∧ l.UserDuoID = loc.User.ID
  | .close loc =>
    ((Close f s loc).1 = none ∨ (Close f s loc).2 = s) ∧
      ∀ l ∈ s.locations, l.DuoID = loc.ID → l.UserDuoID = loc.User.ID
  | .destroy loc =>
    ((Destroy f s loc).1 = none ∨ (Destroy f s loc).2 = s) ∧
      ∀ l ∈ s.locations, l.DuoID = loc.ID → l.UserDuoID = loc.User.ID

instance (f : Faults) (s : Store) (e : Event) : Decidable (inOrder f s e) := by
  cases e <;> (unfold inOrder; infer_instance)

/-- Every event of the sequence is in order on the store it is applied to. -/
def orderedTrace (s : Store) : List (Faults × Event) → Prop
  | [] => True
  | fe :: es => inOrder fe.1 s fe.2 ∧ orderedTrace (apply fe.1 s fe.2).2 es

instance decOrderedTrace :
    (s : Store) → (es : List (Faults × Event)) → Decidable (orderedTrace s es)
  | _, [] => isTrue trivial
  | s, fe :: es =>
    match (inferInstance : Decidable (inOrder fe.1 s fe.2)),
      decOrderedTrace (apply fe.1 s fe.2).2 es with
    | isTrue h1, isTrue h2 => isTrue ⟨h1, h2⟩
    | isFalse h1, _ => isFalse (fun h => h1 h.1)
    | _, isFalse h2 => isFalse (fun h => h2 h.2)

/-- Pointer consistency in the form kept by the handlers: a non-null pointer of
a user row references an open row owned by that user. -/
def Cons1 (s : Store) : Prop :=
  ∀ u ∈ s.users, ∀ i, u.CurrentLocationID = some i →
    ∃ l ∈ s.locations, l.ID = i ∧ l.EndAt = none ∧ l.UserID = u.ID

/-! ## The handlers when no statement fails -/

theorem unlinkLocation_noFaults (s : Store) (loc : DuoLocation) :
    unlinkLocation noFaults s loc =
      match s.users.find? (fun u => u.DuoID = loc.User.ID) with
      | some w => (none, { s with users := s.users.map (clearRow w.ID) })
      | none => (none, s) := by
  unfold unlinkLocation userFirst noFaults
  cases h : s.users.find? (fun u => decide (u.DuoID = loc.User.ID)) with
  | none => simp [IsNotFound]
  | some w =>
    have hm := List.mem_of_find?_eq_some h
    have hany : (s.users.any fun u => decide (u.ID = w.ID)) = true :=
      List.any_eq_true.mpr ⟨w, hm, by simp⟩
    simp [userClearCurrentLocation, hany]

theorem Close_eq (f : Faults) (s : Store) (loc : DuoLocation) :
    Close f s loc =
      match locationUpdate f.locationUpdate s loc with
      | (some e, s1) => if !IsNotFound e then (some e, s1) else unlinkLocation f s1 loc
      | (none, s1) => unlinkLocation f s1 loc := by
  unfold Close WithTx TxCtx.viaDb locationUpdate
  cases f.locationUpdate with
  | some code => simp [IsNotFound]
  | none =>
    simp only
    cases h : unlinkLocation f _ loc with
    | mk r s2 => cases r <;> simp [h]

theorem Close_noFaults (s : Store) (loc : DuoLocation) :
    Close noFaults s loc =
      unlinkLocation noFaults
        { s with locations := s.locations.map (fun l => if l.DuoID = loc.ID then closeRow loc l else l) }
        loc := by
  rw [Close_eq]; simp [locationUpdate, noFaults]

theorem Destroy_noFaults (s : Store) (loc : DuoLocation) :
    Destroy noFaults s loc =
      unlinkLocation noFaults
        { s with locations := s.locations.filter (fun l => ¬ l.DuoID = loc.ID) } loc := by
  simp [Destroy, locationDelete, noFaults]

theorem Create_eq (f : Faults) (s : Store) (loc : DuoLocation) :
    Create f s loc =
      match campusOnly f.campusQuery s loc.CampusID with
      | .error e => (some e, s)
      | .ok campus =>
        if HasPrefix loc.User.Login "3b3" then (none, s)
        else
          match UserFirstOrCreateFromLocation f.userFirstOrCreate s loc with
          | (.error e, s1) => (some e, s1)
          | (.ok user, s1) =>
            match locationUpsert f.locationUpsert s1 campus loc user with
            | (.error e, _) => (some e, s1)
            | (.ok locationID, s2) =>
              match userSetPointers f.userSetPointers s2 user.ID locationID campus with
              | (none, s3) => (none, s3)
              | (some e, _) => (some e, s1) := by
  unfold Create
  cases campusOnly f.campusQuery s loc.CampusID with
  | error e => rfl
  | ok campus =>
    simp only
    split
    · rfl
    · cases h1 : UserFirstOrCreateFromLocation f.userFirstOrCreate s loc with
      | mk r s1 =>
        cases r with
        | error e => rfl
        | ok user =>
          simp only [WithTx, TxCtx.viaTx]
          cases h2 : locationUpsert f.locationUpsert s1 campus loc user with
          | mk r2 s2 =>
            cases r2 with
            | error e => rfl
            | ok locationID =>
              simp only
              cases h3 : userSetPointers f.userSetPointers s2 user.ID locationID campus with
              | mk r3 s3 => cases r3 <;> rfl

theorem firstOrCreate_fst (s : Store) (loc : DuoLocation) :
    (UserFirstOrCreateFromLocation none s loc).1 = .ok (resolvedUser s loc) := by
  unfold UserFirstOrCreateFromLocation resolvedUser
  cases s.users.find? (fun u => decide (u.DuoID = loc.User.ID)) <;> rfl

theorem firstOrCreate_users (s : Store) (loc : DuoLocation) :
    (UserFirstOrCreateFromLocation none s loc).2.users =
      match s.users.find? (fun u => u.DuoID = loc.User.ID) with
      | some _ => s.users
      | none => s.users ++ [resolvedUser s loc] := by
  unfold UserFirstOrCreateFromLocation resolvedUser
  cases s.users.find? (fun u => decide (u.DuoID = loc.User.ID)) <;> rfl

theorem firstOrCreate_locations (s : Store) (loc : DuoLocation) :
    (UserFirstOrCreateFromLocation none s loc).2.locations = s.locations ∧
    (UserFirstOrCreateFromLocation none s loc).2.campuses = s.campuses ∧
    (UserFirstOrCreateFromLocation none s loc).2.nextLocationID = s.nextLocationID := by
  unfold UserFirstOrCreateFromLocation
  cases s.users.find? (fun u => decide (u.DuoID = loc.User.ID)) <;> simp

theorem resolvedUser_DuoID (s : Store) (loc : DuoLocation) :
    (resolvedUser s loc).DuoID = loc.User.ID := by
  unfold resolvedUser
  cases h : s.users.find? (fun u => decide (u.DuoID = loc.User.ID)) with
  | none => rfl
  | some u => simpa using List.find?_some h

theorem resolvedUser_mem (s : Store) (loc : DuoLocation) :
    resolvedUser s loc ∈ (UserFirstOrCreateFromLocation none s loc).2.users := by
  rw [firstOrCreate_users]
  unfold resolvedUser
  cases h : s.users.find? (fun u => decide (u.DuoID = loc.User.ID)) with
  | none => simp
  | some u => exact List.mem_of_find?_eq_some h

theorem locationUpsert_fst (s : Store) (campus : Campus) (loc : DuoLocation) (user : User) :
    (locationUpsert none s campus loc user).1 = .ok (upsertID s loc) := by
  unfold locationUpsert upsertID
  cases s.locations.find? (fun l => decide (l.DuoID = loc.ID)) <;> rfl

theorem locationUpsert_users (s : Store) (campus : Campus) (loc : DuoLocation) (user : User) :
    (locationUpsert none s campus loc user).2.users = s.users ∧
    (locationUpsert none s campus loc user).2.campuses = s.campuses ∧
    (locationUpsert none s campus loc user).2.nextUserID = s.nextUserID := by
  unfold locationUpsert
  cases s.locations.find? (fun l => decide (l.DuoID = loc.ID)) <;> simp

theorem upsertID_firstOrCreate (s : Store) (loc : DuoLocation) :
    upsertID (UserFirstOrCreateFromLocation none s loc).2 loc = upsertID s loc := by
  unfold upsertID
  rw [(firstOrCreate_locations s loc).1, (firstOrCreate_locations s loc).2.2]

/-- With the campus resolved, a login outside the anonymization prefix and no
failing statement, `Create` succeeds and commits `created`. -/
theorem Create_noFaults (s : Store) (loc : DuoLocation) (campus : Campus)
    (hc : campusOnly none s loc.CampusID = .ok campus)
    (hp : HasPrefix loc.User.Login "3b3" = false) :
    Create noFaults s loc = (none, created campus s loc) := by
  rw [Create_eq]
  simp only [noFaults, hc, hp]
  have h1 := firstOrCreate_fst s loc
  have hm := resolvedUser_mem s loc
  cases h : UserFirstOrCreateFromLocation none s loc with
  | mk r s1 =>
    rw [h] at h1 hm
    simp only at h1 hm
    subst h1
    have h2 := locationUpsert_fst s1 campus loc (resolvedUser s loc)
    have hu := (locationUpsert_users s1 campus loc (resolvedUser s loc)).1
    have hid : upsertID s1 loc = upsertID s loc := by
      have := upsertID_firstOrCreate s loc
      rwa [h] at this
    cases h' : locationUpsert none s1 campus loc (resolvedUser s loc) with
    | mk r2 s2 =>
      rw [h'] at h2 hu
      simp only at h2 hu
      subst h2
      have hany : (s2.users.any fun u => decide (u.ID = (resolvedUser s loc).ID)) = true :=
        List.any_eq_true.mpr ⟨resolvedUser s loc, by rw [hu]; exact hm, by simp⟩
      simp [userSetPointers, hany, created, h, h', hid]

/-! ## Shape of the store committed by `Create` -/

@[simp] theorem linkRow_ID (id locationID : Nat) (campus : Campus) (u : User) :
    (linkRow id locationID campus u).ID = u.ID := by
  unfold linkRow; split <;> rfl

@[simp] theorem linkRow_DuoID (id locationID : Nat) (campus : Campus) (u : User) :
    (linkRow id locationID campus u).DuoID = u.DuoID := by
  unfold linkRow; split <;> rfl

@[simp] theorem linkRow_DuoLogin (id locationID : Nat) (campus : Campus) (u : User) :
    (linkRow id locationID campus u).DuoLogin = u.DuoLogin := by
  unfold linkRow; split <;> rfl

@[simp] theorem clearRow_ID (id : Nat) (u : User) : (clearRow id u).ID = u.ID := by
  unfold clearRow; split <;> rfl

@[simp] theorem clearRow_DuoID (id : Nat) (u : User) : (clearRow id u).DuoID = u.DuoID := by
  unfold clearRow; split <;> rfl

theorem find_linkRow (id locationID : Nat) (campus : Campus) (d : Nat) (us : List User) :
    (us.map (linkRow id locationID campus)).find? (fun u => u.DuoID = d) =
      (us.find? (fun u => u.DuoID = d)).map (linkRow id locationID campus) := by
  rw [List.find?_map]
  have hp : ((fun u : User => decide (u.DuoID = d)) ∘ linkRow id locationID campus) =
      fun u => decide (u.DuoID = d) := by
    funext u; simp
  rw [hp]

theorem find_resolvedUser (s : Store) (loc : DuoLocation) :
    (UserFirstOrCreateFromLocation none s loc).2.users.find? (fun u => u.DuoID = loc.User.ID) =
      some (resolvedUser s loc) := by
  rw [firstOrCreate_users]
  unfold resolvedUser
  cases h : s.users.find? (fun u => decide (u.DuoID = loc.User.ID)) with
  | none => simp [List.find?_append, h]
  | some u => simpa using h

theorem created_users (campus : Campus) (s : Store) (loc : DuoLocation) :
    (created campus s loc).users =
      (UserFirstOrCreateFromLocation none s loc).2.users.map
        (linkRow (resolvedUser s loc).ID (upsertID s loc) campus) := by
  simp [created, (locationUpsert_users _ campus loc (resolvedUser s loc)).1]

theorem created_locations (campus : Campus) (s : Store) (loc : DuoLocation) :
    (created campus s loc).locations =
      match s.locations.find? (fun l => l.DuoID = loc.ID) with
      | some _ =>
        s.locations.map
          (fun l => if l.DuoID = loc.ID then upsertRow campus loc (resolvedUser s loc) l else l)
      | none =>
        s.locations ++
          [⟨s.nextLocationID, loc.ID, campus.ID, (resolvedUser s loc).ID, loc.BeginAt, loc.EndAt,
            loc.Host, loc.User.ID, (resolvedUser s loc).DuoLogin⟩] := by
  simp only [created, locationUpsert, (firstOrCreate_locations s loc).1,
    (firstOrCreate_locations s loc).2.2]
  cases s.locations.find? (fun l => decide (l.DuoID = loc.ID)) <;> rfl

theorem created_campuses (campus : Campus) (s : Store) (loc : DuoLocation) :
    (created campus s loc).campuses = s.campuses := by
  simp [created, (locationUpsert_users _ campus loc (resolvedUser s loc)).2.1,
    (firstOrCreate_locations s loc).2.1]

/-- After a successful `Create`, the lookup by the payload's external user
identifier returns the linked row of the resolved user. -/
theorem find_created (campus : Campus) (s : Store) (loc : DuoLocation) :
    (created campus s loc).users.find? (fun u => u.DuoID = loc.User.ID) =
      some (linkRow (resolvedUser s loc).ID (upsertID s loc) campus (resolvedUser s loc)) := by
  rw [created_users, find_linkRow, find_resolvedUser]; rfl

/-- Under unique external user identifiers, every row carrying the payload's
external user identifier after the resolve step is the resolved row. -/
theorem resolvedUser_unique (s : Store) (loc : DuoLocation)
    (hn : (s.users.map (fun u => u.DuoID)).Nodup) :
    ∀ u ∈ (UserFirstOrCreateFromLocation none s loc).2.users,
      u.DuoID = loc.User.ID → u = resolvedUser s loc := by
  intro u hu hd
  rw [firstOrCreate_users] at hu
  unfold resolvedUser
  cases h : s.users.find? (fun u => decide (u.DuoID = loc.User.ID)) with
  | none =>
    rw [h] at hu
    simp only [List.mem_append, List.mem_singleton] at hu
    rcases hu with hu | hu
    · have := List.find?_eq_none.mp h u hu
      simp [hd] at this
    · simpa [resolvedUser, h] using hu
  | some w =>
    rw [h] at hu
    have hw := List.mem_of_find?_eq_some h
    have hwd : w.DuoID = loc.User.ID := by simpa using List.find?_some h
    exact List.inj_on_of_nodup_map hn hu hw (by simp [hd, hwd])

/-- The unlink step on any store whose user table is the one a successful
`Create` committed, for the same external user. -/
theorem unlink_after_created (campus : Campus) (s t : Store) (loc cl : DuoLocation)
    (ht : t.users = (created campus s loc).users) (hu : cl.User.ID = loc.User.ID) :
    unlinkLocation noFaults t cl =
      (none, { t with users := t.users.map (clearRow (resolvedUser s loc).ID) }) := by
  rw [unlinkLocation_noFaults, ht, hu, find_created]
  simp

/-! ## Claims about single handlers -/

/-- C6. Anonymized skip: a `Create` whose user login starts with "3b3" leaves the
store exactly as it was, whatever statements are forced to fail, and returns no
error whenever the campus lookup succeeds. -/
theorem Create_anonymized_skip (f : Faults) (s : Store) (loc : DuoLocation)
    (h : HasPrefix loc.User.Login "3b3" = true) :
    (Create f s loc).2 = s ∧
      ∀ campus, campusOnly f.campusQuery s loc.CampusID = .ok campus → (Create f s loc).1 = none := by
  rw [Create_eq]
  cases hc : campusOnly f.campusQuery s loc.CampusID with
  | error e => simp
  | ok campus => simp [h]

theorem Create_anonymized_skip_witness :
    HasPrefix evAnon.User.Login "3b3" = true ∧
      (Create noFaults store42 evAnon).2 = store42 ∧ (Create noFaults store42 evAnon).1 = none :=
  ⟨by decide, (Create_anonymized_skip noFaults store42 evAnon (by decide)).1,
    (Create_anonymized_skip noFaults store42 evAnon (by decide)).2 campus7 rfl⟩

/-- C8. Create atomicity: when the campus is resolved, the login is not
anonymized, the user is resolved and the upsert succeeds, and the pointer update
is then forced to fail, `Create` returns that failure and the location table is
exactly the one before the call. -/
theorem Create_atomic (f : Faults) (s : Store) (loc : DuoLocation) (campus : Campus) (code : Nat)
    (hc : campusOnly f.campusQuery s loc.CampusID = .ok campus)
    (hp : HasPrefix loc.User.Login "3b3" = false)
    (hu : f.userFirstOrCreate = none) (hl : f.locationUpsert = none)
    (hf : f.userSetPointers = some code) :
    (Create f s loc).1 = some (.infra code) ∧ (Create f s loc).2.locations = s.locations := by
  rw [Create_eq]
  simp only [hc, hp, hu, hl, hf]
  have h1 := firstOrCreate_fst s loc
  have hloc := (firstOrCreate_locations s loc).1
  cases h : UserFirstOrCreateFromLocation none s loc with
  | mk r s1 =>
    rw [h] at h1 hloc
    simp only at h1 hloc
    subst h1
    have h2 := locationUpsert_fst s1 campus loc (resolvedUser s loc)
    cases h' : locationUpsert none s1 campus loc (resolvedUser s loc) with
    | mk r2 s2 =>
      rw [h'] at h2
      simp only at h2
      subst h2
      simp [h', userSetPointers, hloc]

theorem Create_atomic_witness :
    (Create failSetPointers store0 ev42).1 = some (.infra 5) ∧
      (Create failSetPointers store0 ev42).2.locations = store0.locations ∧
      (Create failSetPointers store42 ev42closed).1 = some (.infra 5) ∧
      (Create failSetPointers store42 ev42closed).2.locations = store42.locations :=
  ⟨(Create_atomic failSetPointers store0 ev42 campus7 5 rfl (by decide) rfl rfl rfl).1,
    (Create_atomic failSetPointers store0 ev42 campus7 5 rfl (by decide) rfl rfl rfl).2,
    (Create_atomic failSetPointers store42 ev42closed campus7 5 rfl (by decide) rfl rfl rfl).1,
    (Create_atomic failSetPointers store42 ev42closed campus7 5 rfl (by decide) rfl rfl rfl).2⟩

/-- C9, evaluated on the code. With location 42 open and linked to alice, a
`Close` whose unlink step fails returns the failure and still leaves the row
closed (`EndAt` 200) while alice keeps pointing at it; a `Destroy` whose unlink
step fails returns the failure and has still deleted the row. Neither handler
restores the store it started from. -/
theorem Close_Destroy_not_atomic :
    Close failUserClear store42 ev42closed =
        (some (.infra 5),
          ⟨[campus7], [⟨0, 10, "alice", some 0, some 0, some 1⟩],
            [⟨0, 42, 1, 0, 100, some 200, "e1r1p1", 10, "alice"⟩], 1, 1⟩) ∧
      Destroy failUserClear store42 ev42 =
        (some (.infra 5),
          ⟨[campus7], [⟨0, 10, "alice", some 0, some 0, some 1⟩], [], 1, 1⟩) := by
  decide

/-- C7. Close without prior Create: on a store with no location row for the
event's external identifier and with no failing statement, `Close` returns no
error; the resulting store is the input store with the current-location pointer
cleared on the user row the external user identifier resolves to, and is the
input store itself when no user row has that identifier. -/
theorem Close_unknown (s : Store) (loc : DuoLocation)
    (hno : ∀ l ∈ s.locations, l.DuoID ≠ loc.ID) :
    Close noFaults s loc =
        (none,
          match s.users.find? (fun u => u.DuoID = loc.User.ID) with
          | some w => { s with users := s.users.map (clearRow w.ID) }
          | none => s) ∧
      ((∀ u ∈ s.users, u.DuoID ≠ loc.User.ID) → Close noFaults s loc = (none, s)) := by
  have hmap : s.locations.map (fun l => if l.DuoID = loc.ID then closeRow loc l else l)
      = s.locations := by
    conv_rhs => rw [← List.map_id s.locations]
    apply List.map_congr_left
    intro l hl
    simp [hno l hl]
  have hkey : Close noFaults s loc =
      (none,
        match s.users.find? (fun u => u.DuoID = loc.User.ID) with
        | some w => { s with users := s.users.map (clearRow w.ID) }
        | none => s) := by
    rw [Close_noFaults, hmap, unlinkLocation_noFaults]
    cases s.users.find? (fun u => decide (u.DuoID = loc.User.ID)) <;> rfl
  refine ⟨hkey, fun hnu => ?_⟩
  have hnone : s.users.find? (fun u => decide (u.DuoID = loc.User.ID)) = none := by
    rw [List.find?_eq_none]
    intro u hu
    simpa using hnu u hu
  rw [hkey, hnone]

theorem Close_unknown_witness :
    Close noFaults store42 ev43 =
      (none,
        ⟨[campus7], [⟨0, 10, "alice", none, some 0, some 1⟩],
          [⟨0, 42, 1, 0, 100, none, "e1r1p1", 10, "alice"⟩], 1, 1⟩) :=
  (Close_unknown store42 ev43 (by decide)).1

theorem created_has_row (campus : Campus) (s : Store) (loc : DuoLocation) :
    ∃ l ∈ (created campus s loc).locations, l.DuoID = loc.ID := by
  rw [created_locations]
  cases h : s.locations.find? (fun l => decide (l.DuoID = loc.ID)) with
  | none =>
    exact ⟨⟨s.nextLocationID, loc.ID, campus.ID, (resolvedUser s loc).ID, loc.BeginAt, loc.EndAt,
      loc.Host, loc.User.ID, (resolvedUser s loc).DuoLogin⟩, by simp, rfl⟩
  | some l0 =>
    have hm := List.mem_of_find?_eq_some h
    have hd : l0.DuoID = loc.ID := by simpa using List.find?_some h
    exact ⟨upsertRow campus loc (resolvedUser s loc) l0,
      List.mem_map.mpr ⟨l0, hm, by simp [hd]⟩, by simp [upsertRow, hd]⟩

theorem created_has_user (campus : Campus) (s : Store) (loc : DuoLocation) :
    ∃ u ∈ (created campus s loc).users, u.ID = (resolvedUser s loc).ID ∧ u.DuoID = loc.User.ID := by
  rw [created_users]
  exact ⟨_, List.mem_map.mpr ⟨resolvedUser s loc, resolvedUser_mem s loc, rfl⟩, by simp,
    by simp [resolvedUser_DuoID]⟩

theorem created_users_by_DuoID (campus : Campus) (s : Store) (loc : DuoLocation)
    (hn : (s.users.map (fun u => u.DuoID)).Nodup) :
    ∀ u ∈ (created campus s loc).users, u.DuoID = loc.User.ID → u.ID = (resolvedUser s loc).ID := by
  intro u hu hd
  rw [created_users] at hu
  obtain ⟨u0, hu0, rfl⟩ := List.mem_map.mp hu
  simp only [linkRow_DuoID] at hd
  rw [linkRow_ID, resolvedUser_unique s loc hn u0 hu0 hd]

/-- C4. Create then Close: on every store, a `Create` (campus resolved, login not
anonymized) followed by a `Close` for the same external identifier and the same
external user with `EndAt = T1` and host `h`, no statement failing, returns no
error twice; afterwards a row with the external identifier exists, every such
row has `EndAt = T1` and `Identifier = h`, and the user row resolved for the
event has a null current-location pointer (as has every row carrying the
external user identifier, when those identifiers are unique). -/
theorem Create_then_Close (s : Store) (loc cl : DuoLocation) (campus : Campus) (T1 : Nat)
    (hc : campusOnly none s loc.CampusID = .ok campus)
    (hp : HasPrefix loc.User.Login "3b3" = false)
    (hid : cl.ID = loc.ID) (hu : cl.User.ID = loc.User.ID) (hT : cl.EndAt = some T1) :
    (Create noFaults s loc).1 = none ∧
      (Close noFaults (Create noFaults s loc).2 cl).1 = none ∧
      (∃ l ∈ (Close noFaults (Create noFaults s loc).2 cl).2.locations, l.DuoID = loc.ID) ∧
      (∀ l ∈ (Close noFaults (Create noFaults s loc).2 cl).2.locations,
        l.DuoID = loc.ID → l.EndAt = some T1 ∧ l.Identifier = cl.Host) ∧
      (∃ u ∈ (Close noFaults (Create noFaults s loc).2 cl).2.users,
        u.ID = (resolvedUser s loc).ID ∧ u.DuoID = loc.User.ID) ∧
      (∀ u ∈ (Close noFaults (Create noFaults s loc).2 cl).2.users,
        u.ID = (resolvedUser s loc).ID → u.CurrentLocationID = none) ∧
      ((s.users.map (fun u => u.DuoID)).Nodup →
        ∀ u ∈ (Close noFaults (Create noFaults s loc).2 cl).2.users,
          u.DuoID = loc.User.ID → u.CurrentLocationID = none) := by
  rw [Create_noFaults s loc campus hc hp]
  simp only
  rw [Close_noFaults,
    unlink_after_created campus s
      { created campus s loc with
        locations :=
          (created campus s loc).locations.map
            (fun l => if l.DuoID = cl.ID then closeRow cl l else l) }
      loc cl rfl hu]
  simp only
  have hcleared : ∀ u ∈ (created campus s loc).users.map (clearRow (resolvedUser s loc).ID),
      u.ID = (resolvedUser s loc).ID → u.CurrentLocationID = none := by
    intro u hu' hid'
    obtain ⟨u0, _, rfl⟩ := List.mem_map.mp hu'
    simp only [clearRow_ID] at hid'
    simp [clearRow, hid']
  refine ⟨trivial, trivial, ?_, ?_, ?_, hcleared, ?_⟩
  · obtain ⟨l, hl, hd⟩ := created_has_row campus s loc
    exact ⟨closeRow cl l, List.mem_map.mpr ⟨l, hl, by simp [hd, hid]⟩, by simp [closeRow, hd]⟩
  · intro l hl hd
    obtain ⟨l0, _, rfl⟩ := List.mem_map.mp hl
    by_cases h0 : l0.DuoID = cl.ID
    · simp [h0, closeRow, hT]
    · simp only [h0, if_false] at hd
      exact absurd (hd.trans hid.symm) h0
  · obtain ⟨u, hu', h1, h2⟩ := created_has_user campus s loc
    exact ⟨clearRow (resolvedUser s loc).ID u, List.mem_map.mpr ⟨u, hu', rfl⟩, by simp [h1],
      by simp [h2]⟩
  · intro hn u hu' hd
    apply hcleared u hu'
    obtain ⟨u0, hu0, rfl⟩ := List.mem_map.mp hu'
    simp only [clearRow_DuoID] at hd
    simpa using created_users_by_DuoID campus s loc hn u0 hu0 hd

theorem Create_then_Close_witness :
    (Close noFaults (Create noFaults store0 ev42).2 ev42closed).2 =
      ⟨[campus7], [⟨0, 10, "alice", none, some 0, some 1⟩],
        [⟨0, 42, 1, 0, 100, some 200, "e1r1p1", 10, "alice"⟩], 1, 1⟩ ∧
    (Create noFaults store0 ev42).1 = none ∧
    (Close noFaults (Create noFaults store0 ev42).2 ev42closed).1 = none :=
  ⟨by decide,
    (Create_then_Close store0 ev42 ev42closed campus7 200 rfl (by decide) rfl rfl rfl).1,
    (Create_then_Close store0 ev42 ev42closed campus7 200 rfl (by decide) rfl rfl rfl).2.1⟩

/-- C5. Destroy removes row: on every store, a `Create` (campus resolved, login
not anonymized) followed by a `Destroy` for the same external identifier and the
same external user, no statement failing, returns no error twice; afterwards no
row with the external identifier exists and the user row resolved for the event
has a null current-location pointer (as has every row carrying the external
user identifier, when those identifiers are unique). -/
theorem Create_then_Destroy (s : Store) (loc ds : DuoLocation) (campus : Campus)
    (hc : campusOnly none s loc.CampusID = .ok campus)
    (hp : HasPrefix loc.User.Login "3b3" = false)
    (hid : ds.ID = loc.ID) (hu : ds.User.ID = loc.User.ID) :
    (Create noFaults s loc).1 = none ∧
      (Destroy noFaults (Create noFaults s loc).2 ds).1 = none ∧
      (∀ l ∈ (Destroy noFaults (Create noFaults s loc).2 ds).2.locations, l.DuoID ≠ loc.ID) ∧
      (∃ u ∈ (Destroy noFaults (Create noFaults s loc).2 ds).2.users,
        u.ID = (resolvedUser s loc).ID ∧ u.DuoID = loc.User.ID) ∧
      (∀ u ∈ (Destroy noFaults (Create noFaults s loc).2 ds).2.users,
        u.ID = (resolvedUser s loc).ID → u.CurrentLocationID = none) ∧
      ((s.users.map (fun u => u.DuoID)).Nodup →
        ∀ u ∈ (Destroy noFaults (Create noFaults s loc).2 ds).2.users,
          u.DuoID = loc.User.ID → u.CurrentLocationID = none) := by
  rw [Create_noFaults s loc campus hc hp]
  simp only
  rw [Destroy_noFaults,
    unlink_after_created campus s
      { created campus s loc with
        locations := (created campus s loc).locations.filter (fun l => ¬ l.DuoID = ds.ID) }
      loc ds rfl hu]
  simp only
  have hcleared : ∀ u ∈ (created campus s loc).users.map (clearRow (resolvedUser s loc).ID),
      u.ID = (resolvedUser s loc).ID → u.CurrentLocationID = none := by
    intro u hu' hid'
    obtain ⟨u0, _, rfl⟩ := List.mem_map.mp hu'
    simp only [clearRow_ID] at hid'
    simp [clearRow, hid']
  refine ⟨trivial, trivial, ?_, ?_, hcleared, ?_⟩
  · intro l hl
    have := (List.mem_filter.mp hl).2
    simpa [hid] using this
  · obtain ⟨u, hu', h1, h2⟩ := created_has_user campus s loc
    exact ⟨clearRow (resolvedUser s loc).ID u, List.mem_map.mpr ⟨u, hu', rfl⟩, by simp [h1],
      by simp [h2]⟩
  · intro hn u hu' hd
    apply hcleared u hu'
    obtain ⟨u0, hu0, rfl⟩ := List.mem_map.mp hu'
    simp only [clearRow_DuoID] at hd
    simpa using created_users_by_DuoID campus s loc hn u0 hu0 hd

theorem Create_then_Destroy_witness :
    (Destroy noFaults (Create noFaults store0 ev42).2 ev42).2 =
      ⟨[campus7], [⟨0, 10, "alice", none, some 0, some 1⟩], [], 1, 1⟩ ∧
    (Create noFaults store0 ev42).1 = none ∧
    (Destroy noFaults (Create noFaults store0 ev42).2 ev42).1 = none :=
  ⟨by decide, (Create_then_Destroy store0 ev42 ev42 campus7 rfl (by decide) rfl rfl).1,
    (Create_then_Destroy store0 ev42 ev42 campus7 rfl (by decide) rfl rfl).2.1⟩

/-- Whatever statements are forced to fail, an unlink step that returns no error
on a store where the lookup by external user identifier finds `u` has cleared
the pointer of the rows with the primary key of `u`, and nothing else. -/
theorem unlinkLocation_ok (f : Faults) (t : Store) (loc : DuoLocation) (u : User)
    (hfind : t.users.find? (fun v => v.DuoID = loc.User.ID) = some u)
    (hok : (unlinkLocation f t loc).1 = none) :
    (unlinkLocation f t loc).2 = { t with users := t.users.map (clearRow u.ID) } := by
  unfold unlinkLocation userFirst at hok ⊢
  cases hq : f.userQuery with
  | some code => simp [hq, IsNotFound] at hok
  | none =>
    simp only [hq, hfind] at hok ⊢
    unfold userClearCurrentLocation at hok ⊢
    cases hcl : f.userClear with
    | some code => simp [hcl] at hok
    | none =>
      simp only [hcl] at hok ⊢
      split
      · rfl
      · rename_i hany
        simp [hany] at hok

/-- C10. Unconditional unlink. (1) On every store, for a `Close` or `Destroy`
event whose external user identifier resolves to the user row `u`, whatever
statements are forced to fail, a call that returns no error leaves the user
table equal to the old one with the current-location pointer cleared on the
rows with the primary key of `u`: every such row has a null pointer, whichever
location it referenced before. (2) From a store with one campus, `Create` of
location 42 for alice, `Create` of location 43 for alice and then a stale
`Close` of location 42 all succeed; before the `Close` alice points at the row
of 43, afterwards her pointer is null although the row of 43 is still open
(`EndAt` null) and owned by her. -/
theorem unlink_unconditional :
    (∀ (f : Faults) (s : Store) (loc : DuoLocation) (u : User),
      s.users.find? (fun v => v.DuoID = loc.User.ID) = some u →
        ((Close f s loc).1 = none →
          (Close f s loc).2.users = s.users.map (clearRow u.ID) ∧
            ∀ v ∈ (Close f s loc).2.users, v.ID = u.ID → v.CurrentLocationID = none) ∧
        ((Destroy f s loc).1 = none →
          (Destroy f s loc).2.users = s.users.map (clearRow u.ID) ∧
            ∀ v ∈ (Destroy f s loc).2.users, v.ID = u.ID → v.CurrentLocationID = none)) ∧
    ((Create noFaults store0 ev42).1 = none ∧
      (Create noFaults (Create noFaults store0 ev42).2 ev43) =
        (none,
          ⟨[campus7], [⟨0, 10, "alice", some 1, some 1, some 1⟩],
            [⟨0, 42, 1, 0, 100, none, "e1r1p1", 10, "alice"⟩,
              ⟨1, 43, 1, 0, 150, none, "e1r1p2", 10, "alice"⟩], 1, 2⟩) ∧
      Close noFaults (Create noFaults (Create noFaults store0 ev42).2 ev43).2 ev42closed =
        (none,
          ⟨[campus7], [⟨0, 10, "alice", none, some 1, some 1⟩],
            [⟨0, 42, 1, 0, 100, some 200, "e1r1p1", 10, "alice"⟩,
              ⟨1, 43, 1, 0, 150, none, "e1r1p2", 10, "alice"⟩], 1, 2⟩)) := by
  refine ⟨?_, by decide⟩
  intro f s loc u hfind
  have hcleared : ∀ v ∈ s.users.map (clearRow u.ID), v.ID = u.ID → v.CurrentLocationID = none := by
    intro v hv hid
    obtain ⟨v0, _, rfl⟩ := List.mem_map.mp hv
    simp only [clearRow_ID] at hid
    simp [clearRow, hid]
  constructor
  · intro hok
    rw [Close_eq] at hok ⊢
    unfold locationUpdate at hok ⊢
    cases hl : f.locationUpdate with
    | some code => simp [hl, IsNotFound] at hok
    | none =>
      simp only [hl] at hok ⊢
      rw [unlinkLocation_ok f
        { s with locations :=
            s.locations.map (fun l => if l.DuoID = loc.ID then closeRow loc l else l) }
        loc u hfind hok]
      exact ⟨rfl, hcleared⟩
  · intro hok
    unfold Destroy locationDelete at hok ⊢
    cases hl : f.locationDelete with
    | some code => simp [hl, IsNotFound] at hok
    | none =>
      simp only [hl] at hok ⊢
      rw [unlinkLocation_ok f
        { s with locations := s.locations.filter (fun l => ¬ l.DuoID = loc.ID) }
        loc u hfind hok]
      exact ⟨rfl, hcleared⟩

theorem unlink_unconditional_witness :
    store42.users.find? (fun v => v.DuoID = ev43.User.ID) =
        some ⟨0, 10, "alice", some 0, some 0, some 1⟩ ∧
      (Destroy noFaults store42 ev43).1 = none ∧
      (Destroy noFaults store42 ev43).2.users = [⟨0, 10, "alice", none, some 0, some 1⟩] :=
  ⟨by decide, by decide,
    ((unlink_unconditional.1 noFaults store42 ev43 ⟨0, 10, "alice", some 0, some 0, some 1⟩
      (by decide)).2 (by decide)).1⟩

/-! ## Idempotence of `Create` -/

theorem campusOnly_congr (fault : Option Nat) (s t : Store) (d : Nat)
    (h : t.campuses = s.campuses) : campusOnly fault t d = campusOnly fault s d := by
  unfold campusOnly; rw [h]

theorem linkRow_idem (id locationID : Nat) (campus : Campus) (u : User) :
    linkRow id locationID campus (linkRow id locationID campus u) = linkRow id locationID campus u := by
  unfold linkRow
  by_cases h : u.ID = id <;> simp [h]

/-- A store on which the resolve step finds `r`, the upsert finds a row with
primary key `id` and rewrites no row, and the pointer update rewrites no row, is
committed unchanged by `Create`. -/
theorem created_fixed (campus : Campus) (t : Store) (loc : DuoLocation) (r : User) (l0 : Location)
    (hfind : t.users.find? (fun u => u.DuoID = loc.User.ID) = some r)
    (hex : t.locations.find? (fun l => l.DuoID = loc.ID) = some l0)
    (hrow : ∀ l ∈ t.locations, l.DuoID = loc.ID → upsertRow campus loc r l = l)
    (hlinked : ∀ u ∈ t.users, linkRow r.ID l0.ID campus u = u) :
    created campus t loc = t := by
  have hr : resolvedUser t loc = r := by simp [resolvedUser, hfind]
  have hi : upsertID t loc = l0.ID := by simp [upsertID, hex]
  have h1 : UserFirstOrCreateFromLocation none t loc = (.ok r, t) := by
    simp [UserFirstOrCreateFromLocation, hfind]
  have hmap : t.locations.map (fun l => if l.DuoID = loc.ID then upsertRow campus loc r l else l)
      = t.locations := by
    conv_rhs => rw [← List.map_id t.locations]
    apply List.map_congr_left
    intro l hl
    by_cases hd : l.DuoID = loc.ID
    · simp [hd, hrow l hl hd]
    · simp [hd]
  have humap : t.users.map (linkRow r.ID l0.ID campus) = t.users := by
    conv_rhs => rw [← List.map_id t.users]
    exact List.map_congr_left (fun u hu => by simp [hlinked u hu])
  unfold created
  simp only [hr, hi, h1, locationUpsert, hex, hmap, humap]

theorem filter_key_singleton {α : Type} (key : α → Nat) (l : List α)
    (hn : (l.map key).Nodup) (a : α) (ha : a ∈ l) :
    l.filter (fun x => key x = key a) = [a] := by
  induction l with
  | nil => cases ha
  | cons x xs ih =>
    rw [List.map_cons, List.nodup_cons] at hn
    rcases List.mem_cons.mp ha with rfl | hmem
    · have hnil : xs.filter (fun x => decide (key x = key a)) = [] := by
        rw [List.filter_eq_nil_iff]
        intro y hy hk
        exact hn.1 (List.mem_map.mpr ⟨y, hy, by simpa using hk⟩)
      simp [List.filter_cons, hnil]
    · have hne : key x ≠ key a := fun hk => hn.1 (List.mem_map.mpr ⟨a, hmem, hk.symm⟩)
      simp [List.filter_cons, hne, ih hn.2 hmem]

/-- The rows with the event's external identifier after a successful `Create`,
when external identifiers were unique before: exactly one, carrying the
payload's values under the primary key the upsert returned. -/
theorem created_row (campus : Campus) (s : Store) (loc : DuoLocation)
    (hn : (s.locations.map (fun l => l.DuoID)).Nodup) :
    ∃ row, (created campus s loc).locations.filter (fun l => l.DuoID = loc.ID) = [row] ∧
      (created campus s loc).locations.find? (fun l => l.DuoID = loc.ID) = some row ∧
      row.ID = upsertID s loc ∧ row.DuoID = loc.ID ∧ row.CampusID = campus.ID ∧
      row.UserID = (resolvedUser s loc).ID ∧ row.BeginAt = loc.BeginAt ∧
      row.Identifier = loc.Host ∧ row.UserDuoID = loc.User.ID ∧
      row.UserDuoLogin = (resolvedUser s loc).DuoLogin ∧
      (∀ t, loc.EndAt = some t → row.EndAt = some t) ∧
      upsertRow campus loc (resolvedUser s loc) row = row := by
  rw [created_locations]
  unfold upsertID
  cases h : s.locations.find? (fun l => decide (l.DuoID = loc.ID)) with
  | none =>
    have hnil : s.locations.filter (fun l => decide (l.DuoID = loc.ID)) = [] := by
      rw [List.filter_eq_nil_iff]
      exact List.find?_eq_none.mp h
    refine ⟨⟨s.nextLocationID, loc.ID, campus.ID, (resolvedUser s loc).ID, loc.BeginAt, loc.EndAt,
      loc.Host, loc.User.ID, (resolvedUser s loc).DuoLogin⟩, ?_, ?_, rfl, rfl, rfl, rfl, rfl, rfl,
      rfl, rfl, fun t ht => ht, ?_⟩
    · simp [List.filter_append, hnil]
    · simp [List.find?_append, h]
    · cases he : loc.EndAt <;> simp [upsertRow, he]
  | some l0 =>
    have hm := List.mem_of_find?_eq_some h
    have hd : l0.DuoID = loc.ID := by simpa using List.find?_some h
    have hp : ((fun l : Location => decide (l.DuoID = loc.ID)) ∘
        fun l => if l.DuoID = loc.ID then upsertRow campus loc (resolvedUser s loc) l else l) =
        fun l => decide (l.DuoID = loc.ID) := by
      funext l
      by_cases hl : l.DuoID = loc.ID <;> simp [hl, upsertRow]
    have hf := filter_key_singleton (fun l : Location => l.DuoID) s.locations hn l0 hm
    simp only [hd] at hf
    refine ⟨upsertRow campus loc (resolvedUser s loc) l0, ?_, ?_, rfl, hd, rfl, rfl, rfl, rfl,
      rfl, rfl, ?_, ?_⟩
    · rw [List.filter_map, hp, hf]
      simp [hd]
    · rw [List.find?_map, hp, h]
      simp [hd]
    · intro t ht
      simp [upsertRow, ht]
    · cases he : loc.EndAt <;> simp [upsertRow, he]

theorem upsertRow_congr (campus : Campus) (loc : DuoLocation) (r r' : User) (l : Location)
    (hid : r'.ID = r.ID) (hlogin : r'.DuoLogin = r.DuoLogin) :
    upsertRow campus loc r' l = upsertRow campus loc r l := by
  simp [upsertRow, hid, hlogin]

theorem upsertRow_idem (campus : Campus) (loc : DuoLocation) (r : User) (l : Location) :
    upsertRow campus loc r (upsertRow campus loc r l) = upsertRow campus loc r l := by
  cases he : loc.EndAt <;> simp [upsertRow, he]

theorem created_rows_fixed (campus : Campus) (s : Store) (loc : DuoLocation) :
    ∀ l ∈ (created campus s loc).locations, l.DuoID = loc.ID →
      upsertRow campus loc (resolvedUser s loc) l = l := by
  intro l hl hd
  rw [created_locations] at hl
  cases h : s.locations.find? (fun l => decide (l.DuoID = loc.ID)) with
  | none =>
    rw [h] at hl
    simp only [List.mem_append, List.mem_singleton] at hl
    rcases hl with hl | rfl
    · have := List.find?_eq_none.mp h l hl
      simp [hd] at this
    · cases he : loc.EndAt <;> simp [upsertRow, he]
  | some l0 =>
    rw [h] at hl
    obtain ⟨l1, _, rfl⟩ := List.mem_map.mp hl
    by_cases h1 : l1.DuoID = loc.ID
    · simp only [h1, if_true]
      exact upsertRow_idem campus loc _ l1
    · simp only [h1, if_false] at hd

theorem created_find_row (campus : Campus) (s : Store) (loc : DuoLocation) :
    ∃ l0, (created campus s loc).locations.find? (fun l => l.DuoID = loc.ID) = some l0 ∧
      l0.ID = upsertID s loc := by
  rw [created_locations]
  unfold upsertID
  cases h : s.locations.find? (fun l => decide (l.DuoID = loc.ID)) with
  | none =>
    exact ⟨⟨s.nextLocationID, loc.ID, campus.ID, (resolvedUser s loc).ID, loc.BeginAt, loc.EndAt,
      loc.Host, loc.User.ID, (resolvedUser s loc).DuoLogin⟩, by simp [List.find?_append, h], rfl⟩
  | some l0 =>
    have hd : l0.DuoID = loc.ID := by simpa using List.find?_some h
    have hp : ((fun l : Location => decide (l.DuoID = loc.ID)) ∘
        fun l => if l.DuoID = loc.ID then upsertRow campus loc (resolvedUser s loc) l else l) =
        fun l => decide (l.DuoID = loc.ID) := by
      funext l
      by_cases hl : l.DuoID = loc.ID <;> simp [hl, upsertRow]
    exact ⟨upsertRow campus loc (resolvedUser s loc) l0, by rw [List.find?_map, hp, h]; simp [hd],
      rfl⟩

/-- A second `Create` with the same event commits the store of the first. -/
theorem created_created (campus : Campus) (s : Store) (loc : DuoLocation) :
    created campus (created campus s loc) loc = created campus s loc := by
  obtain ⟨l0, hfind, hl0⟩ := created_find_row campus s loc
  apply created_fixed campus (created campus s loc) loc _ l0 (find_created campus s loc) hfind
  · intro l hl hd
    rw [upsertRow_congr campus loc (resolvedUser s loc) _ l (by simp) (by simp)]
    exact created_rows_fixed campus s loc l hl hd
  · intro u hu
    rw [created_users] at hu
    obtain ⟨u0, _, rfl⟩ := List.mem_map.mp hu
    rw [linkRow_ID, hl0]
    exact linkRow_idem _ _ _ u0

/-- C3. Idempotent Create: on every store, for a `Create` event whose campus is
resolved and whose login does not start with "3b3", no statement failing,
applying `Create` twice returns no error twice and the second call leaves the
store of the first; when external location identifiers were unique before,
exactly one row has the event's external identifier after each call, it carries
the payload's values, and the rows of the resolved user have both their
current-location and last-location pointers equal to its primary key. -/
theorem Create_idempotent (s : Store) (loc : DuoLocation) (campus : Campus)
    (hc : campusOnly none s loc.CampusID = .ok campus)
    (hp : HasPrefix loc.User.Login "3b3" = false) :
    (Create noFaults s loc).1 = none ∧
      (Create noFaults (Create noFaults s loc).2 loc).1 = none ∧
      (Create noFaults (Create noFaults s loc).2 loc).2 = (Create noFaults s loc).2 ∧
      (∃ u ∈ (Create noFaults s loc).2.users,
        u.ID = (resolvedUser s loc).ID ∧ u.DuoID = loc.User.ID) ∧
      ((s.locations.map (fun l => l.DuoID)).Nodup →
        ∃ row,
          (Create noFaults s loc).2.locations.filter (fun l => l.DuoID = loc.ID) = [row] ∧
          (Create noFaults (Create noFaults s loc).2 loc).2.locations.filter
            (fun l => l.DuoID = loc.ID) = [row] ∧
          row.CampusID = campus.ID ∧ row.UserID = (resolvedUser s loc).ID ∧
          row.BeginAt = loc.BeginAt ∧ row.Identifier = loc.Host ∧
          row.UserDuoID = loc.User.ID ∧ row.UserDuoLogin = (resolvedUser s loc).DuoLogin ∧
          (∀ t, loc.EndAt = some t → row.EndAt = some t) ∧
          (∀ u ∈ (Create noFaults s loc).2.users, u.ID = (resolvedUser s loc).ID →
            u.CurrentLocationID = some row.ID ∧ u.LastLocationID = some row.ID) ∧
          (∀ u ∈ (Create noFaults (Create noFaults s loc).2 loc).2.users,
            u.ID = (resolvedUser s loc).ID →
              u.CurrentLocationID = some row.ID ∧ u.LastLocationID = some row.ID)) := by
  have h1 := Create_noFaults s loc campus hc hp
  have hc2 : campusOnly none (created campus s loc) loc.CampusID = .ok campus := by
    rw [campusOnly_congr none s _ loc.CampusID (created_campuses campus s loc)]; exact hc
  have h2 := Create_noFaults (created campus s loc) loc campus hc2 hp
  rw [created_created] at h2
  rw [h1]
  simp only
  rw [h2]
  simp only
  refine ⟨trivial, trivial, trivial, created_has_user campus s loc, ?_⟩
  intro hn
  obtain ⟨row, hf, _, hid, _, h3, h4, h5, h6, h7, h8, h9, _⟩ := created_row campus s loc hn
  have hptr : ∀ u ∈ (created campus s loc).users, u.ID = (resolvedUser s loc).ID →
      u.CurrentLocationID = some row.ID ∧ u.LastLocationID = some row.ID := by
    intro u hu huid
    rw [created_users] at hu
    obtain ⟨u0, _, rfl⟩ := List.mem_map.mp hu
    simp only [linkRow_ID] at huid
    simp [linkRow, huid, hid]
  exact ⟨row, hf, hf, h3, h4, h5, h6, h7, h8, h9, hptr, hptr⟩

theorem Create_idempotent_witness :
    (Create noFaults (Create noFaults store42 ev43).2 ev43).2 = (Create noFaults store42 ev43).2 ∧
      (Create noFaults store42 ev43).2 =
        ⟨[campus7], [⟨0, 10, "alice", some 1, some 1, some 1⟩],
          [⟨0, 42, 1, 0, 100, none, "e1r1p1", 10, "alice"⟩,
            ⟨1, 43, 1, 0, 150, none, "e1r1p2", 10, "alice"⟩], 1, 2⟩ :=
  ⟨(Create_idempotent store42 ev43 campus7 rfl (by decide)).2.2.1, by decide⟩

/-! ## Facts kept by every handler -/

theorem unlinkRow_keys (us : List User) (d : Nat) (u : User) :
    (unlinkRow us d u).ID = u.ID ∧ (unlinkRow us d u).DuoID = u.DuoID := by
  unfold unlinkRow
  cases us.find? (fun u => decide (u.DuoID = d)) <;> simp

theorem unlinkLocation_snd (t : Store) (loc : DuoLocation) :
    (unlinkLocation noFaults t loc).2 =
      { t with users := t.users.map (unlinkRow t.users loc.User.ID) } := by
  rw [unlinkLocation_noFaults]
  unfold unlinkRow
  cases t.users.find? (fun u => decide (u.DuoID = loc.User.ID)) <;> simp

theorem Close_snd (s : Store) (loc : DuoLocation) :
    (Close noFaults s loc).2 =
      { s with
        locations := s.locations.map (fun l => if l.DuoID = loc.ID then closeRow loc l else l)
        users := s.users.map (unlinkRow s.users loc.User.ID) } := by
  rw [Close_noFaults, unlinkLocation_snd]

theorem Destroy_snd (s : Store) (loc : DuoLocation) :
    (Destroy noFaults s loc).2 =
      { s with
        locations := s.locations.filter (fun l => ¬ l.DuoID = loc.ID)
        users := s.users.map (unlinkRow s.users loc.User.ID) } := by
  rw [Destroy_noFaults, unlinkLocation_snd]

/-- A `Create` with no failing statement either leaves the store as it was (the
campus lookup failed or the login is anonymized) or commits `created`. -/
theorem Create_snd (s : Store) (loc : DuoLocation) :
    (Create noFaults s loc).2 = s ∨
      ∃ campus, campusOnly none s loc.CampusID = .ok campus ∧
        HasPrefix loc.User.Login "3b3" = false ∧
        (Create noFaults s loc).2 = created campus s loc := by
  cases hc : campusOnly none s loc.CampusID with
  | error e =>
    left
    rw [Create_eq]
    simp [noFaults, hc]
  | ok campus =>
    cases hp : HasPrefix loc.User.Login "3b3" with
    | true =>
      left
      rw [Create_eq]
      simp [noFaults, hc, hp]
    | false =>
      right
      exact ⟨campus, rfl, rfl, by rw [Create_noFaults s loc campus hc hp]⟩

theorem aux_map_users (s : Store) (g : User → User)
    (hg : ∀ u, (g u).ID = u.ID ∧ (g u).DuoID = u.DuoID) (h : Aux s) :
    Aux { s with users := s.users.map g } := by
  refine ⟨h.locFresh, h.locKey, ?_, ?_⟩
  · intro u hu v hv hd
    obtain ⟨u0, hu0, rfl⟩ := List.mem_map.mp hu
    obtain ⟨v0, hv0, rfl⟩ := List.mem_map.mp hv
    rw [(hg u0).1, (hg v0).1]
    rw [(hg u0).2, (hg v0).2] at hd
    exact h.userDuo u0 hu0 v0 hv0 hd
  · intro l hl
    obtain ⟨u, hu, h1, h2⟩ := h.owner l hl
    exact ⟨g u, List.mem_map.mpr ⟨u, hu, rfl⟩, by rw [(hg u).1, h1], by rw [(hg u).2, h2]⟩

theorem aux_map_locations (s : Store) (g : Location → Location)
    (hID : ∀ l, (g l).ID = l.ID)
    (hown : ∀ l ∈ s.locations, ∃ u ∈ s.users, u.ID = (g l).UserID ∧ u.DuoID = (g l).UserDuoID)
    (h : Aux s) : Aux { s with locations := s.locations.map g } := by
  refine ⟨?_, ?_, h.userDuo, ?_⟩
  · intro l hl
    obtain ⟨l0, hl0, rfl⟩ := List.mem_map.mp hl
    rw [hID]
    exact h.locFresh l0 hl0
  · intro l hl l' hl' hid
    obtain ⟨l0, hl0, rfl⟩ := List.mem_map.mp hl
    obtain ⟨l1, hl1, rfl⟩ := List.mem_map.mp hl'
    rw [hID, hID] at hid
    rw [h.locKey l0 hl0 l1 hl1 hid]
  · intro l hl
    obtain ⟨l0, hl0, rfl⟩ := List.mem_map.mp hl
    exact hown l0 hl0

theorem aux_filter_locations (s : Store) (p : Location → Bool) (h : Aux s) :
    Aux { s with locations := s.locations.filter p } := by
  refine ⟨?_, ?_, h.userDuo, ?_⟩
  · intro l hl
    exact h.locFresh l (List.mem_filter.mp hl).1
  · intro l hl l' hl' hid
    exact h.locKey l (List.mem_filter.mp hl).1 l' (List.mem_filter.mp hl').1 hid
  · intro l hl
    exact h.owner l (List.mem_filter.mp hl).1

theorem aux_firstOrCreate (s : Store) (loc : DuoLocation) (h : Aux s) :
    Aux (UserFirstOrCreateFromLocation none s loc).2 := by
  unfold UserFirstOrCreateFromLocation
  cases hf : s.users.find? (fun u => decide (u.DuoID = loc.User.ID)) with
  | some u => exact h
  | none =>
    have hnone : ∀ u ∈ s.users, u.DuoID ≠ loc.User.ID := by
      intro u hu
      simpa using List.find?_eq_none.mp hf u hu
    refine ⟨h.locFresh, h.locKey, ?_, ?_⟩
    · intro u hu v hv hd
      simp only [List.mem_append, List.mem_singleton] at hu hv
      rcases hu with hu | rfl <;> rcases hv with hv | rfl
      · exact h.userDuo u hu v hv hd
      · exact absurd hd (hnone u hu)
      · exact absurd hd.symm (hnone v hv)
      · rfl
    · intro l hl
      obtain ⟨u, hu, h1, h2⟩ := h.owner l hl
      exact ⟨u, List.mem_append.mpr (Or.inl hu), h1, h2⟩

theorem aux_upsert (s : Store) (campus : Campus) (loc : DuoLocation) (r : User)
    (hr : r ∈ s.users) (hd : r.DuoID = loc.User.ID) (h : Aux s) :
    Aux (locationUpsert none s campus loc r).2 := by
  unfold locationUpsert
  cases hf : s.locations.find? (fun l => decide (l.DuoID = loc.ID)) with
  | some l0 =>
    apply aux_map_locations s _ _ _ h
    · intro l
      by_cases hl : l.DuoID = loc.ID <;> simp [hl, upsertRow]
    · intro l hl
      by_cases hl' : l.DuoID = loc.ID
      · exact ⟨r, hr, by simp [hl', upsertRow], by simp [hl', upsertRow, hd]⟩
      · simpa [hl'] using h.owner l hl
  | none =>
    refine ⟨?_, ?_, h.userDuo, ?_⟩
    · intro l hl
      simp only [List.mem_append, List.mem_singleton] at hl
      rcases hl with hl | rfl
      · exact Nat.lt_succ_of_lt (h.locFresh l hl)
      · exact Nat.lt_succ_self _
    · intro l hl l' hl' hid
      simp only [List.mem_append, List.mem_singleton] at hl hl'
      rcases hl with hl | rfl <;> rcases hl' with hl' | rfl
      · exact h.locKey l hl l' hl' hid
      · exact absurd hid (Nat.ne_of_lt (h.locFresh l hl))
      · exact absurd hid.symm (Nat.ne_of_lt (h.locFresh l' hl'))
      · rfl
    · intro l hl
      simp only [List.mem_append, List.mem_singleton] at hl
      rcases hl with hl | rfl
      · exact h.owner l hl
      · exact ⟨r, hr, rfl, hd⟩

theorem aux_created (campus : Campus) (s : Store) (loc : DuoLocation) (h : Aux s) :
    Aux (created campus s loc) := by
  unfold created
  apply aux_map_users _ _ (fun u => ⟨linkRow_ID _ _ _ u, linkRow_DuoID _ _ _ u⟩)
  exact aux_upsert _ campus loc _ (resolvedUser_mem s loc) (resolvedUser_DuoID s loc)
    (aux_firstOrCreate s loc h)

/-- Every handler keeps the supporting facts. -/
theorem aux_apply (s : Store) (e : Event) (h : Aux s) : Aux (apply noFaults s e).2 := by
  cases e with
  | create loc =>
    rcases Create_snd s loc with h1 | ⟨campus, _, _, h1⟩
    · simp only [apply]; rw [h1]; exact h
    · simp only [apply]; rw [h1]; exact aux_created campus s loc h
  | close loc =>
    simp only [apply]
    rw [Close_snd]
    have h1 : Aux
        { s with
          locations :=
            s.locations.map (fun l => if l.DuoID = loc.ID then closeRow loc l else l) } := by
      apply aux_map_locations s _ _ _ h
      · intro l
        by_cases hl : l.DuoID = loc.ID <;> simp [hl, closeRow]
      · intro l hl
        by_cases hl' : l.DuoID = loc.ID
        · simpa [hl', closeRow] using h.owner l hl
        · simpa [hl'] using h.owner l hl
    exact aux_map_users _ (unlinkRow s.users loc.User.ID) (unlinkRow_keys _ _) h1
  | destroy loc =>
    simp only [apply]
    rw [Destroy_snd]
    exact aux_map_users _ (unlinkRow s.users loc.User.ID) (unlinkRow_keys _ _)
      (aux_filter_locations s (fun l => ¬ l.DuoID = loc.ID) h)

/-! ## The ownership invariant -/

theorem unlinkRow_ptr (us : List User) (d : Nat) (u0 : User) (i : Nat)
    (h : (unlinkRow us d u0).CurrentLocationID = some i) : u0.CurrentLocationID = some i := by
  unfold unlinkRow at h
  cases hf : us.find? (fun u => decide (u.DuoID = d)) with
  | none => simpa [hf] using h
  | some w =>
    simp only [hf, clearRow] at h
    by_cases hw : u0.ID = w.ID
    · simp [hw] at h
    · simpa [hw] using h

/-- The owner of a row written for the external user `d` is the row the lookup
of `d` resolves to. -/
theorem owner_is_resolved (t : Store) (r : User) (l : Location) (d : Nat) (haux : Aux t)
    (hr : r ∈ t.users) (hd : r.DuoID = d) (hl : l ∈ t.locations) (hld : l.UserDuoID = d) :
    l.UserID = r.ID := by
  obtain ⟨u, hu, h1, h2⟩ := haux.owner l hl
  rw [← h1]
  exact haux.userDuo u hu r hr (by rw [h2, hld, hd])

theorem own2_firstOrCreate (s : Store) (loc : DuoLocation) (h : Own2 s) :
    Own2 (UserFirstOrCreateFromLocation none s loc).2 := by
  unfold UserFirstOrCreateFromLocation
  cases hf : s.users.find? (fun u => decide (u.DuoID = loc.User.ID)) with
  | some u => exact h
  | none =>
    constructor
    · intro u hu l hl hp
      simp only [List.mem_append, List.mem_singleton] at hu
      rcases hu with hu | rfl
      · exact h.own u hu l hl hp
      · simp at hp
    · intro u hu i hp
      simp only [List.mem_append, List.mem_singleton] at hu
      rcases hu with hu | rfl
      · exact h.ptrFresh u hu i hp
      · simp at hp

theorem own2_upsert (t : Store) (campus : Campus) (loc : DuoLocation) (r : User)
    (haux : Aux t) (hr : r ∈ t.users) (hd : r.DuoID = loc.User.ID)
    (hk : ∀ l ∈ t.locations, l.DuoID = loc.ID → l.UserDuoID = loc.User.ID) (h : Own2 t) :
    Own2 (locationUpsert none t campus loc r).2 ∧
      (∀ l ∈ (locationUpsert none t campus loc r).2.locations,
        l.ID = upsertID t loc → l.UserID = r.ID) ∧
      upsertID t loc < (locationUpsert none t campus loc r).2.nextLocationID := by
  unfold locationUpsert upsertID
  cases hf : t.locations.find? (fun l => decide (l.DuoID = loc.ID)) with
  | some l0 =>
    have hm := List.mem_of_find?_eq_some hf
    have hd0 : l0.DuoID = loc.ID := by simpa using List.find?_some hf
    refine ⟨⟨?_, h.ptrFresh⟩, ?_, haux.locFresh l0 hm⟩
    · intro u hu l' hl' hp
      obtain ⟨l, hl, rfl⟩ := List.mem_map.mp hl'
      by_cases hle : l.DuoID = loc.ID
      · simp only [hle, if_true] at hp ⊢
        have h1 : l.UserID = u.ID := h.own u hu l hl (by simpa [upsertRow] using hp)
        have h2 := owner_is_resolved t r l loc.User.ID haux hr hd hl (hk l hl hle)
        simp [upsertRow, ← h1, h2]
      · simp only [hle, if_false] at hp ⊢
        exact h.own u hu l hl hp
    · intro l' hl' hid
      obtain ⟨l, hl, rfl⟩ := List.mem_map.mp hl'
      have hid' : l.ID = l0.ID := by
        by_cases hle : l.DuoID = loc.ID <;> simpa [hle, upsertRow] using hid
      have := haux.locKey l hl l0 hm hid'
      subst this
      simp [hd0, upsertRow]
  | none =>
    refine ⟨⟨?_, ?_⟩, ?_, Nat.lt_succ_self _⟩
    · intro u hu l hl hp
      simp only [List.mem_append, List.mem_singleton] at hl
      rcases hl with hl | rfl
      · exact h.own u hu l hl hp
      · exact absurd (h.ptrFresh u hu _ hp) (Nat.lt_irrefl _)
    · intro u hu i hp
      exact Nat.lt_succ_of_lt (h.ptrFresh u hu i hp)
    · intro l hl hid
      simp only [List.mem_append, List.mem_singleton] at hl
      rcases hl with hl | rfl
      · exact absurd hid (Nat.ne_of_lt (haux.locFresh l hl))
      · rfl

theorem own2_link (t : Store) (rid id0 : Nat) (campus : Campus) (h : Own2 t)
    (hpost : ∀ l ∈ t.locations, l.ID = id0 → l.UserID = rid) (hlt : id0 < t.nextLocationID) :
    Own2 { t with users := t.users.map (linkRow rid id0 campus) } := by
  constructor
  · intro u' hu' l hl hp
    obtain ⟨u, hu, rfl⟩ := List.mem_map.mp hu'
    by_cases hid : u.ID = rid
    · simp only [linkRow, hid, if_true] at hp ⊢
      have : l.ID = id0 := by simpa using hp.symm
      exact hpost l hl this
    · simp only [linkRow, hid, if_false] at hp ⊢
      exact h.own u hu l hl hp
  · intro u' hu' i hp
    obtain ⟨u, hu, rfl⟩ := List.mem_map.mp hu'
    by_cases hid : u.ID = rid
    · simp only [linkRow, hid, if_true] at hp
      have : i = id0 := by simpa using hp.symm
      rw [this]; exact hlt
    · simp only [linkRow, hid, if_false] at hp
      exact h.ptrFresh u hu i hp

theorem own2_created (campus : Campus) (s : Store) (loc : DuoLocation) (haux : Aux s)
    (hk : ∀ l ∈ s.locations, l.DuoID = loc.ID → l.UserDuoID = loc.User.ID) (h : Own2 s) :
    Own2 (created campus s loc) := by
  have hk' : ∀ l ∈ (UserFirstOrCreateFromLocation none s loc).2.locations,
      l.DuoID = loc.ID → l.UserDuoID = loc.User.ID := by
    rw [(firstOrCreate_locations s loc).1]; exact hk
  obtain ⟨h1, h2, h3⟩ := own2_upsert _ campus loc _ (aux_firstOrCreate s loc haux)
    (resolvedUser_mem s loc) (resolvedUser_DuoID s loc) hk' (own2_firstOrCreate s loc h)
  rw [upsertID_firstOrCreate] at h2 h3
  exact own2_link _ _ _ campus h1 h2 h3

theorem own2_apply (s : Store) (e : Event) (haux : Aux s) (hk : keepsOwner s e) (h : Own2 s) :
    Own2 (apply noFaults s e).2 := by
  cases e with
  | create loc =>
    rcases Create_snd s loc with h1 | ⟨campus, _, _, h1⟩
    · simp only [apply]; rw [h1]; exact h
    · simp only [apply]; rw [h1]; exact own2_created campus s loc haux hk h
  | close loc =>
    simp only [apply]
    rw [Close_snd]
    constructor
    · intro u' hu' l' hl' hp
      obtain ⟨u, hu, rfl⟩ := List.mem_map.mp hu'
      obtain ⟨l, hl, rfl⟩ := List.mem_map.mp hl'
      have hid : (if l.DuoID = loc.ID then closeRow loc l else l).ID = l.ID := by
        by_cases hle : l.DuoID = loc.ID <;> simp [hle, closeRow]
      have huid : (if l.DuoID = loc.ID then closeRow loc l else l).UserID = l.UserID := by
        by_cases hle : l.DuoID = loc.ID <;> simp [hle, closeRow]
      rw [hid] at hp
      rw [huid, (unlinkRow_keys _ _ u).1]
      exact h.own u hu l hl (unlinkRow_ptr _ _ _ _ hp)
    · intro u' hu' i hp
      obtain ⟨u, hu, rfl⟩ := List.mem_map.mp hu'
      exact h.ptrFresh u hu i (unlinkRow_ptr _ _ _ _ hp)
  | destroy loc =>
    simp only [apply]
    rw [Destroy_snd]
    constructor
    · intro u' hu' l hl hp
      obtain ⟨u, hu, rfl⟩ := List.mem_map.mp hu'
      rw [(unlinkRow_keys _ _ u).1]
      exact h.own u hu l (List.mem_filter.mp hl).1 (unlinkRow_ptr _ _ _ _ hp)
    · intro u' hu' i hp
      obtain ⟨u, hu, rfl⟩ := List.mem_map.mp hu'
      exact h.ptrFresh u hu i (unlinkRow_ptr _ _ _ _ hp)

/-! ## The handlers under forced failures -/

/-- Whatever statements are forced to fail, `Create` leaves behind the store it
started from, the store after the resolve step, or the store of a successful
`Create`. -/
theorem Create_faults (f : Faults) (s : Store) (loc : DuoLocation) :
    (Create f s loc).2 = s ∨
      (Create f s loc).2 = (UserFirstOrCreateFromLocation none s loc).2 ∨
      ∃ campus, (Create f s loc).2 = created campus s loc := by
  rw [Create_eq]
  cases hc : campusOnly f.campusQuery s loc.CampusID with
  | error e => left; rfl
  | ok campus =>
    cases hp : HasPrefix loc.User.Login "3b3" with
    | true => left; simp
    | false =>
      cases hf1 : f.userFirstOrCreate with
      | some code => left; simp [UserFirstOrCreateFromLocation]
      | none =>
        have h1 := firstOrCreate_fst s loc
        have hm := resolvedUser_mem s loc
        have hid := upsertID_firstOrCreate s loc
        cases h : UserFirstOrCreateFromLocation none s loc with
        | mk r sA =>
          rw [h] at h1 hm hid
          simp only at h1 hm hid
          subst h1
          cases hf2 : f.locationUpsert with
          | some code => right; left; simp [locationUpsert]
          | none =>
            have h2 := locationUpsert_fst sA campus loc (resolvedUser s loc)
            have hu := (locationUpsert_users sA campus loc (resolvedUser s loc)).1
            cases h' : locationUpsert none sA campus loc (resolvedUser s loc) with
            | mk r2 s2 =>
              rw [h'] at h2 hu
              simp only at h2 hu
              subst h2
              cases hf3 : f.userSetPointers with
              | some code => right; left; simp [h', userSetPointers]
              | none =>
                right; right
                refine ⟨campus, ?_⟩
                have hany :
                    (s2.users.any fun u => decide (u.ID = (resolvedUser s loc).ID)) = true :=
                  List.any_eq_true.mpr ⟨resolvedUser s loc, by rw [hu]; exact hm, by simp⟩
                simp [userSetPointers, hany, created, h, h', hid]

/-- Whatever statements are forced to fail, the unlink step either returns no
error and leaves the store of the step without failures, or returns an error and
leaves the store as it was. -/
theorem unlinkLocation_faults (f : Faults) (t : Store) (loc : DuoLocation) :
    ((unlinkLocation f t loc).1 = none ∧
        (unlinkLocation f t loc).2 = (unlinkLocation noFaults t loc).2) ∨
      ((unlinkLocation f t loc).1 ≠ none ∧ (unlinkLocation f t loc).2 = t) := by
  rw [unlinkLocation_noFaults]
  unfold unlinkLocation userFirst
  cases hq : f.userQuery with
  | some code => right; simp [IsNotFound]
  | none =>
    cases hfind : t.users.find? (fun u => decide (u.DuoID = loc.User.ID)) with
    | none => left; simp [IsNotFound]
    | some w =>
      have hany : (t.users.any fun u => decide (u.ID = w.ID)) = true :=
        List.any_eq_true.mpr ⟨w, List.mem_of_find?_eq_some hfind, by simp⟩
      cases hcl : f.userClear with
      | some code => right; simp [userClearCurrentLocation, hcl]
      | none => left; simp [userClearCurrentLocation, hcl, hany]

/-- Whatever statements are forced to fail, `Close` leaves the store as it was,
or returns no error and leaves the store of a `Close` without failures, or
returns an error and leaves the location update applied without the unlink. -/
theorem Close_faults (f : Faults) (s : Store) (loc : DuoLocation) :
    (Close f s loc).2 = s ∨
      ((Close f s loc).1 = none ∧ (Close f s loc).2 = (Close noFaults s loc).2) ∨
      ((Close f s loc).1 ≠ none ∧
        (Close f s loc).2 =
          { s with
            locations :=
              s.locations.map (fun l => if l.DuoID = loc.ID then closeRow loc l else l) }) := by
  rw [Close_eq, Close_noFaults]
  unfold locationUpdate
  cases hl : f.locationUpdate with
  | some code => left; simp [IsNotFound]
  | none =>
    right
    simp only
    rcases unlinkLocation_faults f
      { s with
        locations :=
          s.locations.map (fun l => if l.DuoID = loc.ID then closeRow loc l else l) } loc with
      h | h
    · exact Or.inl h
    · exact Or.inr h

/-- Whatever statements are forced to fail, `Destroy` leaves the store as it
was, or returns no error and leaves the store of a `Destroy` without failures,
or returns an error and leaves the rows deleted without the unlink. -/
theorem Destroy_faults (f : Faults) (s : Store) (loc : DuoLocation) :
    (Destroy f s loc).2 = s ∨
      ((Destroy f s loc).1 = none ∧ (Destroy f s loc).2 = (Destroy noFaults s loc).2) ∨
      ((Destroy f s loc).1 ≠ none ∧
        (Destroy f s loc).2 =
          { s with locations := s.locations.filter (fun l => ¬ l.DuoID = loc.ID) }) := by
  rw [Destroy_noFaults]
  unfold Destroy locationDelete
  cases hl : f.locationDelete with
  | some code => left; simp [IsNotFound]
  | none =>
    right
    simp only
    rcases unlinkLocation_faults f
      { s with locations := s.locations.filter (fun l => ¬ l.DuoID = loc.ID) } loc with h | h
    · exact Or.inl h
    · exact Or.inr h

theorem aux_closeRows (s : Store) (loc : DuoLocation) (h : Aux s) :
    Aux
      { s with
        locations :=
          s.locations.map (fun l => if l.DuoID = loc.ID then closeRow loc l else l) } := by
  apply aux_map_locations s _ _ _ h
  · intro l
    by_cases hl : l.DuoID = loc.ID <;> simp [hl, closeRow]
  · intro l hl
    by_cases hl' : l.DuoID = loc.ID
    · simpa [hl', closeRow] using h.owner l hl
    · simpa [hl'] using h.owner l hl

/-- Every handler keeps the supporting facts, whatever statements are forced to
fail. -/
theorem aux_applyF (f : Faults) (s : Store) (e : Event) (h : Aux s) :
    Aux (apply f s e).2 := by
  cases e with
  | create loc =>
    simp only [apply]
    rcases Create_faults f s loc with h1 | h1 | ⟨campus, h1⟩
    · rw [h1]; exact h
    · rw [h1]; exact aux_firstOrCreate s loc h
    · rw [h1]; exact aux_created campus s loc h
  | close loc =>
    simp only [apply]
    rcases Close_faults f s loc with h1 | ⟨_, h1⟩ | ⟨_, h1⟩
    · rw [h1]; exact h
    · rw [h1]; exact aux_apply s (.close loc) h
    · rw [h1]; exact aux_closeRows s loc h
  | destroy loc =>
    simp only [apply]
    rcases Destroy_faults f s loc with h1 | ⟨_, h1⟩ | ⟨_, h1⟩
    · rw [h1]; exact h
    · rw [h1]; exact aux_apply s (.destroy loc) h
    · rw [h1]; exact aux_filter_locations s (fun l => ¬ l.DuoID = loc.ID) h

/-- Every handler keeps ownership, whatever statements are forced to fail, when
a `Create` keeps the owner of the rows it rewrites. -/
theorem own2_applyF (f : Faults) (s : Store) (e : Event) (haux : Aux s)
    (hk : keepsOwner s e) (h : Own2 s) : Own2 (apply f s e).2 := by
  cases e with
  | create loc =>
    simp only [apply]
    rcases Create_faults f s loc with h1 | h1 | ⟨campus, h1⟩
    · rw [h1]; exact h
    · rw [h1]; exact own2_firstOrCreate s loc h
    · rw [h1]; exact own2_created campus s loc haux hk h
  | close loc =>
    simp only [apply]
    rcases Close_faults f s loc with h1 | ⟨_, h1⟩ | ⟨_, h1⟩
    · rw [h1]; exact h
    · rw [h1]; exact own2_apply s (.close loc) haux trivial h
    · rw [h1]
      constructor
      · intro u hu l' hl' hp
        obtain ⟨l, hl, rfl⟩ := List.mem_map.mp hl'
        have hid : (if l.DuoID = loc.ID then closeRow loc l else l).ID = l.ID := by
          by_cases hle : l.DuoID = loc.ID <;> simp [hle, closeRow]
        have huid : (if l.DuoID = loc.ID then closeRow loc l else l).UserID = l.UserID := by
          by_cases hle : l.DuoID = loc.ID <;> simp [hle, closeRow]
        rw [hid] at hp
        rw [huid]
        exact h.own u hu l hl hp
      · exact h.ptrFresh
  | destroy loc =>
    simp only [apply]
    rcases Destroy_faults f s loc with h1 | ⟨_, h1⟩ | ⟨_, h1⟩
    · rw [h1]; exact h
    · rw [h1]; exact own2_apply s (.destroy loc) haux trivial h
    · rw [h1]
      exact ⟨fun u hu l hl hp => h.own u hu l (List.mem_filter.mp hl).1 hp, h.ptrFresh⟩

theorem aux_run (es : List (Faults × Event)) : ∀ s : Store, Aux s → Aux (run s es) := by
  induction es with
  | nil => intro s h; exact h
  | cons fe es ih => intro s h; exact ih _ (aux_applyF fe.1 s fe.2 h)

theorem own2_run (es : List (Faults × Event)) :
    ∀ s : Store, Aux s → Own2 s → ownerTrace s es → Own2 (run s es) := by
  induction es with
  | nil => intro s _ h _; exact h
  | cons fe es ih =>
    intro s haux h ht
    exact ih _ (aux_applyF fe.1 s fe.2 haux) (own2_applyF fe.1 s fe.2 haux ht.1 h) ht.2

theorem aux_empty (s : Store) (hu : s.users = []) (hl : s.locations = []) : Aux s := by
  constructor <;> simp [hu, hl]

/-- C2, as stated, fails on the code. From a store with one campus and no user or
location row, with no statement failing, `Create` of location 42 for alice
followed by `Create` of the same external identifier for bob rewrites the owner
of the row to bob and leaves alice pointing at it. -/
theorem ownership_counterexample :
    store0.users = [] ∧ store0.locations = [] ∧
      run store0 [(noFaults, .create ev42), (noFaults, .create ev42bob)] =
        ⟨[campus7],
          [⟨0, 10, "alice", some 0, some 0, some 1⟩, ⟨1, 20, "bob", some 0, some 0, some 1⟩],
          [⟨0, 42, 1, 1, 120, none, "e1r1p1", 20, "bob"⟩], 2, 1⟩ ∧
      ¬ OwnerConsistent (run store0 [(noFaults, .create ev42), (noFaults, .create ev42bob)]) := by
  refine ⟨rfl, rfl, by decide, ?_⟩
  intro h
  have h1 := h ⟨0, 10, "alice", some 0, some 0, some 1⟩ (by decide)
    ⟨0, 42, 1, 1, 120, none, "e1r1p1", 20, "bob"⟩ (by decide) rfl
  exact absurd h1 (by decide)

/-- C2, amended. Starting from a store with no user and no location row and
applying any finite sequence of Create, Close and Destroy events, whatever
statements are forced to fail, in which every `Create` whose external identifier
already has a row names the external user that row was written for: in the
resulting store, for every user whose current-location pointer references a
location row, that row's owning user is this user. -/
theorem ownership_invariant (s : Store) (hu : s.users = []) (hl : s.locations = [])
    (es : List (Faults × Event)) (ht : ownerTrace s es) : OwnerConsistent (run s es) := by
  have h0 : Own2 s := by
    constructor
    · intro u hu'; simp [hu] at hu'
    · intro u hu'; simp [hu] at hu'
  exact (own2_run es s (aux_empty s hu hl) h0 ht).own

theorem ownership_invariant_witness :
    run store0 ownerExample =
        ⟨[campus7],
          [⟨0, 10, "alice", some 1, some 1, some 1⟩, ⟨1, 20, "bob", none, none, none⟩],
          [⟨0, 42, 1, 0, 100, some 200, "e1r1p9", 10, "alice"⟩,
            ⟨1, 43, 1, 0, 150, none, "e1r1p2", 10, "alice"⟩], 2, 2⟩ ∧
      OwnerConsistent (run store0 ownerExample) :=
  ⟨by decide, ownership_invariant store0 rfl rfl ownerExample (by decide)⟩

/-! ## The pointer-consistency invariant -/

theorem unlinkRow_ptr_strong (us : List User) (d : Nat) (u0 : User) (i : Nat)
    (hud : ∀ u ∈ us, ∀ v ∈ us, u.DuoID = v.DuoID → u.ID = v.ID)
    (h : (unlinkRow us d u0).CurrentLocationID = some i) :
    ∀ w ∈ us, w.DuoID = d → w.ID ≠ u0.ID := by
  intro w hw hwd
  unfold unlinkRow at h
  cases hf : us.find? (fun u => decide (u.DuoID = d)) with
  | none =>
    have := List.find?_eq_none.mp hf w hw
    simp [hwd] at this
  | some w1 =>
    have hm := List.mem_of_find?_eq_some hf
    have hd1 : w1.DuoID = d := by simpa using List.find?_some hf
    simp only [hf, clearRow] at h
    by_cases hw1 : u0.ID = w1.ID
    · simp [hw1] at h
    · rw [hud w hw w1 hm (by rw [hwd, hd1])]
      exact fun hEq => hw1 hEq.symm

/-- A pointer that survives the unlink step of an event naming the external user
of the rows with its external identifier does not reference one of those rows. -/
theorem survivor_row (s : Store) (loc : DuoLocation) (haux : Aux s)
    (hk : ∀ l ∈ s.locations, l.DuoID = loc.ID → l.UserDuoID = loc.User.ID)
    (u : User) (i : Nat)
    (hp : (unlinkRow s.users loc.User.ID u).CurrentLocationID = some i)
    (l : Location) (hl : l ∈ s.locations) (huid : l.UserID = u.ID) : l.DuoID ≠ loc.ID := by
  intro hle
  obtain ⟨u1, hu1, h1, h2⟩ := haux.owner l hl
  have := unlinkRow_ptr_strong s.users loc.User.ID u i haux.userDuo hp u1 hu1
    (h2.trans (hk l hl hle))
  exact this (h1.trans huid)

theorem cons_firstOrCreate (s : Store) (loc : DuoLocation) (h : Cons1 s) :
    Cons1 (UserFirstOrCreateFromLocation none s loc).2 := by
  unfold UserFirstOrCreateFromLocation
  cases hf : s.users.find? (fun u => decide (u.DuoID = loc.User.ID)) with
  | some u => exact h
  | none =>
    intro u hu i hp
    simp only [List.mem_append, List.mem_singleton] at hu
    rcases hu with hu | rfl
    · exact h u hu i hp
    · simp at hp

theorem cons_upsert (t : Store) (campus : Campus) (loc : DuoLocation) (r : User)
    (haux : Aux t) (hr : r ∈ t.users) (hd : r.DuoID = loc.User.ID) (he : loc.EndAt = none)
    (hk : ∀ l ∈ t.locations, l.DuoID = loc.ID → l.EndAt = none ∧ l.UserDuoID = loc.User.ID)
    (h : Cons1 t) :
    Cons1 (locationUpsert none t campus loc r).2 ∧
      ∃ l ∈ (locationUpsert none t campus loc r).2.locations,
        l.ID = upsertID t loc ∧ l.EndAt = none ∧ l.UserID = r.ID := by
  unfold locationUpsert upsertID
  cases hf : t.locations.find? (fun l => decide (l.DuoID = loc.ID)) with
  | some l0 =>
    have hm := List.mem_of_find?_eq_some hf
    have hd0 : l0.DuoID = loc.ID := by simpa using List.find?_some hf
    constructor
    · intro u hu i hp
      obtain ⟨l, hl, hid, hend, huid⟩ := h u hu i hp
      refine ⟨_, List.mem_map.mpr ⟨l, hl, rfl⟩, ?_⟩
      by_cases hle : l.DuoID = loc.ID
      · have h2 := owner_is_resolved t r l loc.User.ID haux hr hd hl (hk l hl hle).2
        simp [hle, upsertRow, he, hid, hend, ← huid, h2]
      · simp [hle, hid, hend, huid]
    · exact ⟨_, List.mem_map.mpr ⟨l0, hm, rfl⟩, by simp [hd0, upsertRow],
        by simp [hd0, upsertRow, he, (hk l0 hm hd0).1], by simp [hd0, upsertRow]⟩
  | none =>
    constructor
    · intro u hu i hp
      obtain ⟨l, hl, hid, hend, huid⟩ := h u hu i hp
      exact ⟨l, List.mem_append.mpr (Or.inl hl), hid, hend, huid⟩
    · exact ⟨_, List.mem_append.mpr (Or.inr (List.mem_singleton.mpr rfl)), rfl, he, rfl⟩

theorem cons_link (t : Store) (rid id0 : Nat) (campus : Campus) (h : Cons1 t)
    (hpost : ∃ l ∈ t.locations, l.ID = id0 ∧ l.EndAt = none ∧ l.UserID = rid) :
    Cons1 { t with users := t.users.map (linkRow rid id0 campus) } := by
  intro u' hu' i hp
  obtain ⟨u, hu, rfl⟩ := List.mem_map.mp hu'
  by_cases hid : u.ID = rid
  · simp only [linkRow, hid, if_true] at hp ⊢
    have : id0 = i := by simpa using hp
    subst this
    exact hpost
  · simp only [linkRow, hid, if_false] at hp ⊢
    exact h u hu i hp

theorem cons_created (campus : Campus) (s : Store) (loc : DuoLocation) (haux : Aux s)
    (he : loc.EndAt = none)
    (hk : ∀ l ∈ s.locations, l.DuoID = loc.ID → l.EndAt = none ∧ l.UserDuoID = loc.User.ID)
    (h : Cons1 s) : Cons1 (created campus s loc) := by
  have hk' : ∀ l ∈ (UserFirstOrCreateFromLocation none s loc).2.locations,
      l.DuoID = loc.ID → l.EndAt = none ∧ l.UserDuoID = loc.User.ID := by
    rw [(firstOrCreate_locations s loc).1]; exact hk
  obtain ⟨h1, h2⟩ := cons_upsert _ campus loc _ (aux_firstOrCreate s loc haux)
    (resolvedUser_mem s loc) (resolvedUser_DuoID s loc) he hk' (cons_firstOrCreate s loc h)
  rw [upsertID_firstOrCreate] at h2
  exact cons_link _ _ _ campus h1 h2

theorem cons_close (s : Store) (loc : DuoLocation) (haux : Aux s)
    (hk : ∀ l ∈ s.locations, l.DuoID = loc.ID → l.UserDuoID = loc.User.ID) (h : Cons1 s) :
    Cons1 (Close noFaults s loc).2 := by
  rw [Close_snd]
  intro u' hu' i hp
  obtain ⟨u, hu, rfl⟩ := List.mem_map.mp hu'
  obtain ⟨l, hl, hid, hend, huid⟩ := h u hu i (unlinkRow_ptr _ _ _ _ hp)
  have hne := survivor_row s loc haux hk u i hp l hl huid
  exact ⟨l, List.mem_map.mpr ⟨l, hl, by simp [hne]⟩, hid, hend,
    by rw [(unlinkRow_keys _ _ u).1]; exact huid⟩

theorem cons_destroy (s : Store) (loc : DuoLocation) (haux : Aux s)
    (hk : ∀ l ∈ s.locations, l.DuoID = loc.ID → l.UserDuoID = loc.User.ID) (h : Cons1 s) :
    Cons1 (Destroy noFaults s loc).2 := by
  rw [Destroy_snd]
  intro u' hu' i hp
  obtain ⟨u, hu, rfl⟩ := List.mem_map.mp hu'
  obtain ⟨l, hl, hid, hend, huid⟩ := h u hu i (unlinkRow_ptr _ _ _ _ hp)
  have hne := survivor_row s loc haux hk u i hp l hl huid
  exact ⟨l, List.mem_filter.mpr ⟨hl, by simpa using hne⟩, hid, hend,
    by rw [(unlinkRow_keys _ _ u).1]; exact huid⟩

/-- Every event that is in order keeps pointer consistency, whatever statements
of a `Create` are forced to fail. -/
theorem cons_applyF (f : Faults) (s : Store) (e : Event) (haux : Aux s)
    (hk : inOrder f s e) (h : Cons1 s) : Cons1 (apply f s e).2 := by
  cases e with
  | create loc =>
    simp only [apply]
    rcases Create_faults f s loc with h1 | h1 | ⟨campus, h1⟩
    · rw [h1]; exact h
    · rw [h1]; exact cons_firstOrCreate s loc h
    · rw [h1]; exact cons_created campus s loc haux hk.1 hk.2 h
  | close loc =>
    simp only [apply]
    rcases hk.1 with hok | hsame
    · rcases Close_faults f s loc with h1 | ⟨_, h1⟩ | ⟨herr, _⟩
      · rw [h1]; exact h
      · rw [h1]; exact cons_close s loc haux hk.2 h
      · exact absurd hok herr
    · rw [hsame]; exact h
  | destroy loc =>
    simp only [apply]
    rcases hk.1 with hok | hsame
    · rcases Destroy_faults f s loc with h1 | ⟨_, h1⟩ | ⟨herr, _⟩
      · rw [h1]; exact h
      · rw [h1]; exact cons_destroy s loc haux hk.2 h
      · exact absurd hok herr
    · rw [hsame]; exact h

theorem cons_run (es : List (Faults × Event)) :
    ∀ s : Store, Aux s → Cons1 s → orderedTrace s es → Cons1 (run s es) := by
  induction es with
  | nil => intro s _ h _; exact h
  | cons fe es ih =>
    intro s haux h ht
    exact ih _ (aux_applyF fe.1 s fe.2 haux) (cons_applyF fe.1 s fe.2 haux ht.1 h) ht.2

/-- C1, as stated, fails on the code. From a store with one campus and no user
or location row, with no statement failing, a single `Create` whose payload
carries `EndAt = 200` inserts a closed row and points alice at it. -/
theorem pointer_consistency_counterexample :
    store0.users = [] ∧ store0.locations = [] ∧
      run store0 [(noFaults, .create ev42closed)] =
        ⟨[campus7], [⟨0, 10, "alice", some 0, some 0, some 1⟩],
          [⟨0, 42, 1, 0, 100, some 200, "e1r1p1", 10, "alice"⟩], 1, 1⟩ ∧
      ¬ PointerConsistent (run store0 [(noFaults, .create ev42closed)]) := by
  refine ⟨rfl, rfl, by decide, ?_⟩
  intro h
  have h1 := (h ⟨0, 10, "alice", some 0, some 0, some 1⟩ (by decide) 0 rfl).2
    ⟨0, 42, 1, 0, 100, some 200, "e1r1p1", 10, "alice"⟩ (by decide) rfl
  exact absurd h1 (by decide)

/-- C1, amended. Starting from a store with no user and no location row and
applying any finite sequence of Create, Close and Destroy events, whatever
statements of a `Create` are forced to fail, every event in order on the store
it is applied to (a `Create` carries a null `EndAt` and, if its external
identifier already has a row, that row is open and was written for the same
external user; a `Close` or `Destroy` either returns no error or leaves the
store as it was, and names the external user the row with its external
identifier was written for): in the resulting store, for every user whose
current-location pointer is non-null, the referenced location row exists and has
a null `EndAt`. -/
theorem pointer_consistency (s : Store) (hu : s.users = []) (hl : s.locations = [])
    (es : List (Faults × Event)) (ht : orderedTrace s es) : PointerConsistent (run s es) := by
  have h0 : Cons1 s := by
    intro u hu'; simp [hu] at hu'
  have haux := aux_run es s (aux_empty s hu hl)
  have hcons := cons_run es s (aux_empty s hu hl) h0 ht
  intro u hu' i hp
  obtain ⟨l, hl', hid, hend, _⟩ := hcons u hu' i hp
  refine ⟨⟨l, hl', hid⟩, ?_⟩
  intro l' hl'' hid'
  rw [haux.locKey l' hl'' l hl' (hid'.trans hid.symm)]
  exact hend

theorem pointer_consistency_witness :
    run store0 orderedExample =
        ⟨[campus7],
          [⟨0, 10, "alice", some 2, some 2, some 1⟩, ⟨1, 20, "bob", none, some 1, some 1⟩],
          [⟨0, 42, 1, 0, 100, some 200, "e1r1p1", 10, "alice"⟩,
            ⟨2, 43, 1, 0, 150, none, "e1r1p2", 10, "alice"⟩], 2, 3⟩ ∧
      PointerConsistent (run store0 orderedExample) :=
  ⟨by decide, pointer_consistency store0 rfl rfl orderedExample (by decide)⟩

/-- A user row pointing at a closed row breaks pointer consistency. -/
theorem not_consistent_of_closed (s : Store) (u : User) (l : Location) (hu : u ∈ s.users)
    (hl : l ∈ s.locations) (hp : u.CurrentLocationID = some l.ID) (he : l.EndAt ≠ none) :
    ¬ PointerConsistent s :=
  fun h => he ((h u hu l.ID hp).2 l hl rfl)

/-- A user row pointing at no row breaks pointer consistency. -/
theorem not_consistent_of_dangling (s : Store) (u : User) (i : Nat) (hu : u ∈ s.users)
    (hp : u.CurrentLocationID = some i) (hno : ∀ l ∈ s.locations, l.ID ≠ i) :
    ¬ PointerConsistent s := by
  intro h
  obtain ⟨l, hl, hid⟩ := (h u hu i hp).1
  exact hno l hl hid

/-- Each condition of `inOrder` is needed for pointer consistency: a `Create`
redelivered after the `Close` of its location, a `Close` naming another external
user, a `Destroy` naming another external user, a `Create` of an existing
location for another external user followed by its `Close`, and a `Close` or a
`Destroy` that returns an error after its location statement, each leave alice
pointing at a closed or missing row. -/
theorem inOrder_conditions_needed :
    ¬ PointerConsistent
        (run store0 [(noFaults, .create ev42), (noFaults, .close ev42closed),
          (noFaults, .create ev42)]) ∧
      ¬ PointerConsistent (run store0 [(noFaults, .create ev42), (noFaults, .close ev42bobClosed)]) ∧
      ¬ PointerConsistent (run store0 [(noFaults, .create ev42), (noFaults, .destroy ev42bob)]) ∧
      ¬ PointerConsistent
        (run store0 [(noFaults, .create ev42), (noFaults, .create ev42bob),
          (noFaults, .close ev42bobClosed)]) ∧
      ¬ PointerConsistent
        (run store0 [(noFaults, .create ev42), (failUserClear, .close ev42closed)]) ∧
      ¬ PointerConsistent
        (run store0 [(noFaults, .create ev42), (failUserClear, .destroy ev42)]) := by
  refine ⟨?_, ?_, ?_, ?_, ?_, ?_⟩
  · exact not_consistent_of_closed _ ⟨0, 10, "alice", some 0, some 0, some 1⟩
      ⟨0, 42, 1, 0, 100, some 200, "e1r1p1", 10, "alice"⟩ (by decide) (by decide) rfl (by decide)
  · exact not_consistent_of_closed _ ⟨0, 10, "alice", some 0, some 0, some 1⟩
      ⟨0, 42, 1, 0, 100, some 300, "e1r1p1", 10, "alice"⟩ (by decide) (by decide) rfl (by decide)
  · exact not_consistent_of_dangling _ ⟨0, 10, "alice", some 0, some 0, some 1⟩ 0 (by decide) rfl
      (by decide)
  · exact not_consistent_of_closed _ ⟨0, 10, "alice", some 0, some 0, some 1⟩
      ⟨0, 42, 1, 1, 120, some 300, "e1r1p1", 20, "bob"⟩ (by decide) (by decide) rfl (by decide)
  · exact not_consistent_of_closed _ ⟨0, 10, "alice", some 0, some 0, some 1⟩
      ⟨0, 42, 1, 0, 100, some 200, "e1r1p1", 10, "alice"⟩ (by decide) (by decide) rfl (by decide)
  · exact not_consistent_of_dangling _ ⟨0, 10, "alice", some 0, some 0, some 1⟩ 0 (by decide) rfl
      (by decide)

end Webhooks
